import Mathlib

/-!
Verification of the camera-navigation core of the 3D solar-system explorer
(`src/App.jsx`, `src/data.js`).

The JavaScript source is shallowly embedded: JS numbers are modelled as real
numbers, three.js `Vector3` values as a `Vec3` structure of reals, and the
per-frame mutable controller state as explicit state passing.  The 32-bit
string hash is modelled over `Nat` with explicit reduction modulo `2 ^ 32`
(JS `Math.imul` and `^` agree with arithmetic modulo `2 ^ 32` followed by
the final `>>> 0` normalisation).  Randomness (`Math.random()` and the
helpers built on it) is modelled by passing the drawn values as explicit
oracle arguments.
-/

open scoped Classical

noncomputable section

/-- Vector of three real components, modelling a three.js `Vector3`. -/
structure Vec3 where
  x : ℝ
  y : ℝ
  z : ℝ

/-- Componentwise addition (`Vector3.add`). -/
def vadd (a b : Vec3) : Vec3 := ⟨a.x + b.x, a.y + b.y, a.z + b.z⟩

/-- Componentwise subtraction (`Vector3.sub`). -/
def vsub (a b : Vec3) : Vec3 := ⟨a.x - b.x, a.y - b.y, a.z - b.z⟩

/-- Scalar multiple (`Vector3.multiplyScalar`). -/
def smul (t : ℝ) (a : Vec3) : Vec3 := ⟨t * a.x, t * a.y, t * a.z⟩

/-- Dot product (`Vector3.dot`). -/
def dotV (a b : Vec3) : ℝ := a.x * b.x + a.y * b.y + a.z * b.z

/-- Cross product (`Vector3.crossVectors a b`). -/
def crossV (a b : Vec3) : Vec3 :=
  ⟨a.y * b.z - a.z * b.y, a.z * b.x - a.x * b.z, a.x * b.y - a.y * b.x⟩

/-- Squared length (`Vector3.lengthSq`). -/
def normSq (a : Vec3) : ℝ := a.x * a.x + a.y * a.y + a.z * a.z

/-- Length (`Vector3.length`). -/
def lengthV (a : Vec3) : ℝ := Real.sqrt (normSq a)

/-- Distance between two points (`Vector3.distanceTo`). -/
def distT (a b : Vec3) : ℝ := lengthV (vsub a b)

/-- `Vector3.normalize` is `divideScalar (length || 1)`: a zero vector is
left unchanged, otherwise the vector is divided by its length. -/
def normalizeV (a : Vec3) : Vec3 :=
  if lengthV a = 0 then a else smul (lengthV a)⁻¹ a

/-- `Vector3.lerp (v, t)`: each component moves by `t` of the gap. -/
def vlerp (a b : Vec3) (t : ℝ) : Vec3 :=
  ⟨a.x + (b.x - a.x) * t, a.y + (b.y - a.y) * t, a.z + (b.z - a.z) * t⟩

/-- `Vector3.addScaledVector`. -/
def addScaled (a : Vec3) (b : Vec3) (t : ℝ) : Vec3 := vadd a (smul t b)

/-- JS truncation toward zero (the rounding used by the `%` operator). -/
def jsTrunc (t : ℝ) : ℤ := if 0 ≤ t then ⌊t⌋ else ⌈t⌉

/-- JS remainder `n % m` for finite operands: `n - m * trunc (n / m)`. -/
def jsFmod (n m : ℝ) : ℝ := n - m * (jsTrunc (n / m) : ℝ)

/-- `Math.round`: round half toward positive infinity. -/
def jsRound (t : ℝ) : ℤ := ⌊t + 1 / 2⌋

/-- `Math.atan2 (y, x)` for real arguments (no signed zero in `ℝ`, so the
`x = 0, y = 0` result is `0`). -/
def jsAtan2 (y x : ℝ) : ℝ :=
  if 0 < x then Real.arctan (y / x)
  else if x < 0 then
    (if 0 ≤ y then Real.arctan (y / x) + Real.pi else Real.arctan (y / x) - Real.pi)
  else
    (if 0 < y then Real.pi / 2 else if y < 0 then -(Real.pi / 2) else 0)

/-- `THREE.MathUtils.clamp (value, min, max) = Math.max (min, Math.min (max, value))`. -/
def clampR (v lo hi : ℝ) : ℝ := max lo (min hi v)

/-- `THREE.MathUtils.lerp`. -/
def lerpR (x y t : ℝ) : ℝ := (1 - t) * x + t * y

/-- `THREE.MathUtils.damp (x, y, lambda, dt) = lerp (x, y, 1 - exp (-lambda * dt))`. -/
def dampR (x y lam dt : ℝ) : ℝ := lerpR x y (1 - Real.exp (-lam * dt))

/-- `THREE.MathUtils.degToRad`. -/
def degToRad (d : ℝ) : ℝ := d * Real.pi / 180

/-- `THREE.MathUtils.radToDeg`. -/
def radToDeg (r : ℝ) : ℝ := r * 180 / Real.pi

/-- `THREE.MathUtils.euclideanModulo (n, m) = ((n % m) % m + m) % m` with the
JS `%`; the source (three.js) writes `((n % m) + m) % m`. -/
def euclideanModulo (n m : ℝ) : ℝ := jsFmod (jsFmod n m + m) m

/-- One FNV-1a step of `hashPhase`: `hash ^= code; hash = Math.imul (hash, 16777619)`,
working modulo `2 ^ 32` (the representative kept by the final `>>> 0`). -/
def hashStep (h c : ℕ) : ℕ := ((h ^^^ c) * 16777619) % 2 ^ 32

/-- The 32-bit FNV-1a loop of `hashPhase` over the UTF-16 code units of the
seed string, starting from `2166136261`. -/
def fnv1a (codes : List ℕ) : ℕ := codes.foldl hashStep 2166136261

/-- UTF-16 code units of a string; the repository only hashes ASCII body
names, for which Lean characters and UTF-16 code units coincide. -/
def strCodes (s : String) : List ℕ := s.data.map Char.toNat

/-- `hashPhase (seed) = ((hash >>> 0) % 360) / 360` as a rational. -/
def hashPhase (seed : String) : ℚ := ((fnv1a (strCodes seed) % 360 : ℕ) : ℚ) / 360

/-- `hashPhase` as a real number, for use inside the pose solver. -/
def hashPhaseR (seed : String) : ℝ := ((hashPhase seed : ℚ) : ℝ)

/-! ### `Moon` component: inclination folding, rendered tilt, retrograde flag
(`App.jsx` lines 1325-1339). -/

/-- `rawInclinationDeg` of the `Moon` component: the configured inclination
(arriving in radians) converted to degrees, reduced with
`euclideanModulo (deg, 360)` and mirrored above 180.  The source's
`Number.isFinite` guard is vacuous in the real-number model. -/
def rawInclinationDegOf (orbitInclinationRad : ℝ) : ℝ :=
  let deg := euclideanModulo (radToDeg orbitInclinationRad) 360
  if deg > 180 then 360 - deg else deg

/-- The planar (rendered) tilt in degrees from `effectiveInclinationRad`. -/
def planarInclinationDegOf (raw : ℝ) : ℝ := if raw > 90 then 180 - raw else raw

/-- `effectiveInclinationRad` of the `Moon` component. -/
def effectiveInclinationRadOf (orbitInclinationRad : ℝ) : ℝ :=
  degToRad (planarInclinationDegOf (rawInclinationDegOf orbitInclinationRad))

/-- The `retrograde` memo of the `Moon` component. -/
def moonRetrograde (orbitPeriod orbitInclinationRad : ℝ) : Prop :=
  orbitPeriod < 0 ∨ rawInclinationDegOf orbitInclinationRad > 90

/-! ### Moon orbital state solvers (`getStartupMoonOrbitAngles`,
`getScientificMoonOrbitState`, `App.jsx` lines 344-410). -/

/-- The per-moon configuration fields the solvers read; `none` models an
absent (`undefined`) field in `data.js`. -/
structure MoonConfig where
  orbitPeriod : ℝ
  orbitalInclinationDeg : Option ℝ
  ascendingNodeDeg : Option ℝ

/-- A `{angle, inclinationRad, ascendingNodeRad}` state entry. -/
structure MoonOrbitEntry where
  angle : ℝ
  inclinationRad : ℝ
  ascendingNodeRad : ℝ

/-- The `planetName/moonName` key. -/
def moonKey (planetName moonName : String) : String := planetName ++ "/" ++ moonName

/-- One entry of `getStartupMoonOrbitAngles` (lines 348-358). -/
def startupMoonEntry (planetName moonName : String) (days : ℝ) (m : MoonConfig) :
    MoonOrbitEntry :=
  let key := moonKey planetName moonName
  let orbitDays := max |m.orbitPeriod| 0.001 * 365.25
  let phase := jsFmod (days / orbitDays + hashPhaseR (key ++ ":phase")) 1
  { angle := phase * (Real.pi * 2)
    inclinationRad := degToRad (m.orbitalInclinationDeg.getD 0)
    ascendingNodeRad := degToRad (m.ascendingNodeDeg.getD (hashPhaseR (key ++ ":node") * 360)) }

/-- The `setFallback` entry of `getScientificMoonOrbitState` (lines 380-391). -/
def scientificFallbackEntry (planetName moonName : String) (days : ℝ) (m : MoonConfig) :
    MoonOrbitEntry :=
  let key := moonKey planetName moonName
  let orbitDays := max |m.orbitPeriod| 0.001 * 365.25
  let phase := jsFmod (days / orbitDays + hashPhaseR key) 1
  let isEarthMoon := key = "Earth/Moon"
  { angle := phase * (Real.pi * 2)
    inclinationRad := if isEarthMoon then 0 else degToRad (m.orbitalInclinationDeg.getD 0)
    ascendingNodeRad :=
      if isEarthMoon then 0
      else degToRad (m.ascendingNodeDeg.getD (hashPhaseR (key ++ ":node") * 360)) }

/-- The Horizons-vector entry of `getScientificMoonOrbitState` (lines 397-410):
the ephemeris vector only replaces the phase angle, plane orientation is
recomputed from the same configured elements. -/
def scientificHorizonsEntry (planetName moonName : String) (vector : Vec3) (m : MoonConfig) :
    MoonOrbitEntry :=
  let key := moonKey planetName moonName
  let isEarthMoon := key = "Earth/Moon"
  { angle := jsAtan2 vector.z vector.x
    inclinationRad := if isEarthMoon then 0 else degToRad (m.orbitalInclinationDeg.getD 0)
    ascendingNodeRad :=
      if isEarthMoon then 0
      else degToRad (m.ascendingNodeDeg.getD (hashPhaseR (key ++ ":node") * 360)) }

/-- The final entry for one moon in `getScientificMoonOrbitState` when a
Horizons snapshot is present: the fallback entry, overridden by the vector
entry when the snapshot holds a vector for the moon.  (When no snapshot is
present the astronomy-engine branch, lines 412-442, additionally overrides
the `angle` field only, leaving plane orientation untouched.) -/
def scientificMoonEntry (planetName moonName : String) (days : ℝ) (m : MoonConfig)
    (vector : Option Vec3) : MoonOrbitEntry :=
  match vector with
  | some v => scientificHorizonsEntry planetName moonName v m
  | none => scientificFallbackEntry planetName moonName days m

/-! ### Planet startup orbit angles (`getStartupOrbitAngles`, lines 464-500). -/

/-- JS object key assignment `obj[k] = v` over an association-list model. -/
def upsertA : List (String × ℝ) → String → ℝ → List (String × ℝ)
  | [], k, v => [(k, v)]
  | (k0, v0) :: rest, k, v =>
    if k0 = k then (k, v) :: rest else (k0, v0) :: upsertA rest k v

/-- JS object key lookup. -/
def alookup : List (String × ℝ) → String → Option ℝ
  | [], _ => none
  | (k0, v0) :: rest, k => if k0 = k then some v0 else alookup rest k

/-- `getStartupOrbitAngles` over planet names.  `vec` is the optional Horizons
snapshot vector per planet; `helio` delivers the astronomy-engine fallback
`(x, y)` (`none` when the planet has no `PLANET_TO_BODY` entry or the
heliocentric vector is non-finite); `rnd` supplies the `Math.random()` draw
used for the final random-angle fallback. -/
def startupOrbitAngles (planets : List String) (vec : String → Option Vec3)
    (helio : String → Option (ℝ × ℝ)) (rnd : String → ℝ) : List (String × ℝ) :=
  let withVec := planets.foldl (fun acc p =>
    match vec p with
    | some v => upsertA acc p (jsAtan2 v.z v.x)
    | none => acc) []
  planets.foldl (fun acc p =>
    if (alookup acc p).isSome then acc
    else
      match helio p with
      | some hv => upsertA acc p (jsAtan2 hv.2 hv.1)
      | none => upsertA acc p (rnd p * (Real.pi * 2))) withVec

/-! ### Steering-vector pipeline of `FreeRoamController` (lines 2128-2251)
and the moon-view offsets of `CameraPilot` (lines 1651-1677). -/

def worldUpV : Vec3 := ⟨0, 1, 0⟩

def axisXV : Vec3 := ⟨1, 0, 0⟩

/-- `randomUnitVector` (lines 1835-1841), with the two `Math.random()` draws
exposed as `theta` (already scaled to `[0, 2π)`) and `zdraw = random * 2 - 1`. -/
def randomUnitVec (theta zdraw : ℝ) : Vec3 :=
  let xy := Real.sqrt (max 0 (1 - zdraw * zdraw))
  ⟨Real.cos theta * xy, zdraw, Real.sin theta * xy⟩

/-- Orbit radial direction (lines 2215-2217): camera minus focus, a fresh
random unit vector when degenerate, then normalized. -/
def orbitRadial (camera focus rnd : Vec3) : Vec3 :=
  let r := vsub camera focus
  normalizeV (if normSq r < 1e-6 then rnd else r)

/-- Orbit tangent direction (lines 2228-2230). -/
def orbitTangent (radial : Vec3) (spin : ℝ) : Vec3 :=
  let t := crossV worldUpV radial
  smul spin (normalizeV (if normSq t < 1e-6 then crossV axisXV radial else t))

/-- Orbit desired direction (lines 2232-2234). -/
def orbitDesired (radial tangent : Vec3) : Vec3 :=
  normalizeV (vadd (smul 0.82 tangent) (smul (-0.34) radial))

/-- Smoothed ship-forward update (lines 2237-2239). -/
def shipForwardNext (sf desired : Vec3) (delta : ℝ) : Vec3 :=
  let f := vlerp sf desired (clampR (delta * 1.7) 0.03 0.24)
  normalizeV (if normSq f < 1e-6 then desired else f)

/-- Ship right vector (lines 2241-2243). -/
def shipRightOf (f : Vec3) : Vec3 :=
  let r := crossV f worldUpV
  normalizeV (if normSq r < 1e-6 then (⟨1, 0, 0⟩ : Vec3) else r)

/-- Ship up vector (line 2244). -/
def shipUpOf (r f : Vec3) : Vec3 := normalizeV (crossV r f)

/-- Blended movement direction (lines 2246-2251). -/
def moveVec (f r u : Vec3) (orbitMode : Prop) (strafe sinv : ℝ) : Vec3 :=
  normalizeV (if orbitMode then addScaled (addScaled f r (strafe * 0.22)) u (sinv * 0.05) else f)

/-- `CameraPilot` moon outward offset (lines 1656-1658). -/
def moonOutwardOf (target parentPos : Vec3) : Vec3 :=
  let o := vsub target parentPos
  normalizeV (if normSq o < 1e-6 then (⟨1, 0.2, 1⟩ : Vec3) else o)

/-- `CameraPilot` moon side offset (lines 1661-1663). -/
def moonSideOf (outward : Vec3) : Vec3 :=
  let s := crossV outward worldUpV
  normalizeV (if normSq s < 1e-6 then (⟨1, 0, 0⟩ : Vec3) else s)

/-! ### Earth clearance clamps. -/

/-- `MAP_ENTER_SURFACE_BUFFER` (line 15). -/
def mapEnterSurfaceBuffer : ℝ := 0.22

/-- The guarded escape direction of the live-camera Earth clamp
(lines 2301-2303). -/
def earthEscapeDir (pos earthPos : Vec3) : Vec3 :=
  let d := vsub pos earthPos
  normalizeV (if normSq d < 1e-6 then (⟨1, 0.2, 0.6⟩ : Vec3) else d)

/-- Live-camera Earth clearance clamp (lines 2295-2307). -/
def clampCameraEarth (earthPos : Vec3) (earthRadius : ℝ) (pos : Vec3) : Vec3 :=
  let minE := earthRadius + mapEnterSurfaceBuffer + 0.34
  let d := distT pos earthPos
  if d < minE then addScaled pos (earthEscapeDir pos earthPos) (minE - d + 0.02) else pos

/-- Waypoint Earth clearance clamp at the end of `chooseAutoRoamTarget`
(lines 1962-1974). -/
def earthClampWaypoint (earthPos : Vec3) (earthRadius : ℝ) (cameraPos way : Vec3) : Vec3 :=
  let minE := earthRadius + mapEnterSurfaceBuffer + 0.4
  if distT way earthPos < minE then
    let a0 := vsub way earthPos
    let a1 := if normSq a0 < 1e-6 then vsub cameraPos earthPos else a0
    let a2 := if normSq a1 < 1e-6 then (⟨1, 0.2, 0.4⟩ : Vec3) else a1
    addScaled earthPos (normalizeV a2) (minE + 0.06)
  else way

/-! ### Auto-roam pilot state machine (`FreeRoamController`, lines 2112-2333). -/

/-- `autoState.mode`. -/
inductive RoamMode | travel | orbit
deriving DecidableEq

/-- The roam target type strings. -/
inductive TTypeR | sun | planet | moon | asteroid | kuiper | oort
deriving DecidableEq

/-- The lowercase JS string of a target type. -/
def ttypeString : TTypeR → String
  | TTypeR.sun => "sun"
  | TTypeR.planet => "planet"
  | TTypeR.moon => "moon"
  | TTypeR.asteroid => "asteroid"
  | TTypeR.kuiper => "kuiper"
  | TTypeR.oort => "oort"

/-- `type.charAt(0).toUpperCase() + type.slice(1)`, per constructor. -/
def ttypeCapital : TTypeR → String
  | TTypeR.sun => "Sun"
  | TTypeR.planet => "Planet"
  | TTypeR.moon => "Moon"
  | TTypeR.asteroid => "Asteroid"
  | TTypeR.kuiper => "Kuiper"
  | TTypeR.oort => "Oort"

/-- `autoState.mode` as the string stored in status events. -/
def modeString : RoamMode → String
  | RoamMode.travel => "travel"
  | RoamMode.orbit => "orbit"

/-- `describeRoamTarget` (lines 207-218). -/
def describeRoamTarget (t : TTypeR) (focusKey : Option String) : String :=
  if t = TTypeR.asteroid then "Asteroid Belt"
  else if t = TTypeR.kuiper then "Kuiper Belt"
  else if t = TTypeR.oort then "Oort Cloud"
  else if (match focusKey with
           | some k => (k.splitOn "/").length ≥ 2
           | none => False) then
    (match focusKey with
     | some k =>
       let parts := k.splitOn "/"
       ((parts.get? 1).getD "") ++ " (" ++ ((parts.get? 0).getD "") ++ ")"
     | none => "")
  else
    match focusKey with
    | some k => if k ≠ "" then k else ttypeCapital t
    | none => ttypeCapital t

/-- The result record of `chooseAutoRoamTarget` (lines 1976-1988). -/
structure Choice where
  focus : Vec3
  waypoint : Vec3
  ttype : TTypeR
  focusKey : Option String
  arrivalDistance : ℝ
  orbitStrafe : ℝ
  orbitSpin : ℝ

/-- `autoStateRef.current` (lines 1724-1738). -/
structure AutoState where
  hasTarget : Bool
  mode : RoamMode
  holdUntilMs : ℝ
  travelStartedMs : ℝ
  targetType : TTypeR
  focusKey : Option String
  arrivalDistance : ℝ
  orbitSpin : ℝ
  orbitStrafe : ℝ
  orbitTurnsTarget : ℝ
  orbitTurnsProgress : ℝ
  orbitPrevAzimuth : Option ℝ
  forceInnerNext : Bool

/-- One status event (the argument of `onAutoRoamStatus`); `none` in the
`distance` and `etaSeconds` fields models `NaN`. -/
structure RoamStatus where
  mode : String
  targetType : Option String
  focusKey : Option String
  targetLabel : String
  distance : Option ℝ
  etaSeconds : Option ℝ
  holdRemainingSeconds : ℝ
  orbitTurnsProgress : ℝ
  orbitTurnsTarget : ℝ

/-- The dedup signature of `emitAutoRoamStatus` (lines 1814-1824), with each
joined component kept as a field; `none` in a rounded field models `NaN`. -/
structure RoamSig where
  mode : String
  label : String
  focusKeyStr : String
  dist10 : Option ℤ
  eta5 : Option ℤ
  hold5 : ℤ
  prog10 : ℤ
deriving DecidableEq

/-- Signature of an emitted status (`none` stands for the signature string
of a `null` status). -/
def sigOf (st : Option RoamStatus) : Option RoamSig :=
  st.map fun s =>
    { mode := s.mode
      label := s.targetLabel
      focusKeyStr := s.focusKey.getD "none"
      dist10 := s.distance.map fun d => jsRound (d / 10)
      eta5 := s.etaSeconds.map fun e => jsRound (e * 5)
      hold5 := jsRound (s.holdRemainingSeconds * 5)
      prog10 := jsRound (s.orbitTurnsProgress * 10) }

/-- `emitAutoRoamStatus` (lines 1812-1833): updates the `(signature, time)`
ref and returns the emitted event, `none` when deduplicated. -/
def emitStep (sig0 : Option RoamSig) (t0 : ℝ) (st : Option RoamStatus) (now : ℝ) :
    (Option RoamSig × ℝ) × Option (Option RoamStatus) :=
  let sig := sigOf st
  if sig ≠ sig0 ∨ now - t0 > 220 then ((sig, now), some st) else ((sig0, t0), none)

/-- The mutable controller state touched by one auto-roam frame. -/
structure RoamCtl where
  auto : AutoState
  autoSpeed : ℝ
  shipForward : Vec3
  focusPos : Vec3
  waypointPos : Vec3
  camera : Vec3
  emitSig : Option RoamSig
  emitTime : ℝ

/-- The per-frame environment: flags, props, clock, and the outcomes of the
random draws and of the body-registry reads made during the frame. -/
structure RoamFrameEnv where
  scientificMode : Bool
  autoRoamSpeed : ℝ
  nowMs : ℝ
  delta : ℝ
  cameraForward : Vec3
  earth : Option (Vec3 × ℝ)
  chooseResult : Option Choice
  holdDrawPlanetMoon : ℝ
  holdDrawField : ℝ
  turnsDrawPlanetMoon : ℝ
  turnsDrawSun : ℝ
  turnsDrawField : ℝ
  radialDraw : Vec3

/-- `speedFactor` (line 2136). -/
def speedFactorOf (env : RoamFrameEnv) : ℝ := clampR env.autoRoamSpeed 0.1 1

/-- `travelTimeoutMs` (line 2137). -/
def travelTimeoutOf (env : RoamFrameEnv) : ℝ :=
  (if env.scientificMode then (48000 : ℝ) else 16000) / max (speedFactorOf env) 0.1

/-- `travelTimedOut` (lines 2138-2140). -/
def travelTimedOutP (env : RoamFrameEnv) (a : AutoState) : Prop :=
  a.hasTarget = true ∧ a.mode = RoamMode.travel ∧
    env.nowMs - a.travelStartedMs > travelTimeoutOf env

/-- `orbitReadyToDepart` (lines 2143-2146). -/
def orbitReadyP (env : RoamFrameEnv) (a : AutoState) : Prop :=
  a.hasTarget = true ∧ a.mode = RoamMode.orbit ∧ env.nowMs ≥ a.holdUntilMs ∧
    a.orbitTurnsProgress ≥ a.orbitTurnsTarget

/-- `needsTarget` (lines 2147-2149). -/
def roamNeedsTarget (env : RoamFrameEnv) (a : AutoState) : Prop :=
  a.hasTarget = false ∨ travelTimedOutP env a ∨ orbitReadyP env a

/-- State adoption of a freshly chosen target (lines 2156-2169). -/
def adoptChoice (env : RoamFrameEnv) (next : Choice) : AutoState :=
  { hasTarget := true
    mode := RoamMode.travel
    holdUntilMs := 0
    travelStartedMs := env.nowMs
    targetType := next.ttype
    focusKey := next.focusKey
    arrivalDistance := next.arrivalDistance
    orbitSpin := next.orbitSpin
    orbitStrafe := next.orbitStrafe
    orbitTurnsTarget := 1
    orbitTurnsProgress := 0
    orbitPrevAzimuth := none
    forceInnerNext := decide (next.ttype = TTypeR.oort ∨ next.ttype = TTypeR.kuiper) }

/-- The target-acquisition stage of the frame (lines 2138-2173): the
`forceInnerNext` mutation on timeout, then adoption of `chooseResult` when a
new target is needed. -/
def roamAcquire (env : RoamFrameEnv) (c : RoamCtl) : RoamCtl :=
  let a0 := { c.auto with
    forceInnerNext := if travelTimedOutP env c.auto then true else c.auto.forceInnerNext }
  if roamNeedsTarget env c.auto then
    match env.chooseResult with
    | some next =>
      { c with auto := adoptChoice env next, focusPos := next.focus,
               waypointPos := next.waypoint }
    | none => { c with auto := a0 }
  else { c with auto := a0 }

/-- The status emitted while no target is held (lines 2176-2186). -/
def acquiringStatus : RoamStatus :=
  { mode := "acquiring", targetType := none, focusKey := none
    targetLabel := "Acquiring next waypoint", distance := none, etaSeconds := none
    holdRemainingSeconds := 0, orbitTurnsProgress := 0, orbitTurnsTarget := 0 }

/-- The `travel → orbit` arrival transition (lines 2194-2209); the hold and
turn-count draws come from the environment. -/
def roamArrival (env : RoamFrameEnv) (a : AutoState) (targetDistance : ℝ)
    (camera focus : Vec3) : AutoState :=
  if a.mode = RoamMode.travel ∧ targetDistance ≤ a.arrivalDistance then
    { a with
      mode := RoamMode.orbit
      holdUntilMs := env.nowMs +
        (if a.targetType = TTypeR.moon ∨ a.targetType = TTypeR.planet then
          env.holdDrawPlanetMoon else env.holdDrawField)
      orbitTurnsTarget :=
        if a.targetType = TTypeR.moon ∨ a.targetType = TTypeR.planet then
          env.turnsDrawPlanetMoon
        else if a.targetType = TTypeR.sun then env.turnsDrawSun
        else env.turnsDrawField
      orbitTurnsProgress := 0
      orbitPrevAzimuth := some (jsAtan2 (vsub camera focus).z (vsub camera focus).x) }
  else a

/-- The azimuth-wrap of the turn counter (lines 2221-2223).  The source uses
two `while` loops; every value reaching them is a difference of two `atan2`
results, hence lies in `(-2π, 2π)`, so each loop body runs at most once and
one conditional step computes the loop fixpoint. -/
def wrapPi (d : ℝ) : ℝ :=
  if d > Real.pi then d - Real.pi * 2
  else if d < -Real.pi then d + Real.pi * 2
  else d

/-- The orbit turn-progress update (lines 2214-2226): returns the new
`(orbitTurnsProgress, orbitPrevAzimuth)` pair. -/
def roamProgress (env : RoamFrameEnv) (a : AutoState) (camera focus : Vec3) :
    ℝ × Option ℝ :=
  if a.mode = RoamMode.orbit then
    let radial := orbitRadial camera focus env.radialDraw
    let az := jsAtan2 radial.z radial.x
    match a.orbitPrevAzimuth with
    | some prev => (a.orbitTurnsProgress + |wrapPi (az - prev)| / (Real.pi * 2), some az)
    | none => (a.orbitTurnsProgress, some az)
  else (a.orbitTurnsProgress, a.orbitPrevAzimuth)

/-- The desired steering direction (lines 2211-2235). -/
def roamDesired (env : RoamFrameEnv) (a : AutoState) (sf : Vec3) (targetDir : Vec3)
    (targetDistance : ℝ) (camera focus : Vec3) : Vec3 :=
  if a.mode = RoamMode.travel then
    (if targetDistance > 1e-4 then smul targetDistance⁻¹ targetDir else sf)
  else
    let radial := orbitRadial camera focus env.radialDraw
    orbitDesired radial (orbitTangent radial a.orbitSpin)

/-- `targetSpeedPerSecond` (lines 2253-2262). -/
def roamTargetSpeed (env : RoamFrameEnv) (a : AutoState) (targetDistance : ℝ) : ℝ :=
  let travelSpeed :=
    if env.scientificMode then clampR (targetDistance * 0.11) 22 32000
    else clampR (targetDistance * 0.13) 2.2 780
  let orbitSpeed :=
    if env.scientificMode then clampR (targetDistance * 0.05) 6 4200
    else clampR (targetDistance * 0.045) 0.7 48
  let closeBodySlowdown :=
    if a.targetType = TTypeR.planet ∨ a.targetType = TTypeR.moon then
      clampR (targetDistance / (a.arrivalDistance * 3.2)) 0.28 1
    else 1
  (if a.mode = RoamMode.travel then travelSpeed else orbitSpeed) *
    speedFactorOf env * closeBodySlowdown

/-- The frame body while a target is held (lines 2189-2333, up to the Earth
clamp; the subsequent orientation block, lines 2309-2331, changes neither the
auto-roam state nor the camera position nor the emitted status). -/
def roamTrackedStep (env : RoamFrameEnv) (c : RoamCtl) : RoamCtl × Option (Option RoamStatus) :=
  let a1 := c.auto
  let sf0 := if normSq c.shipForward < 1e-6 then env.cameraForward else c.shipForward
  let targetPos := if a1.mode = RoamMode.travel then c.waypointPos else c.focusPos
  let targetDir := vsub targetPos c.camera
  let targetDistance := lengthV targetDir
  let a2 := roamArrival env a1 targetDistance c.camera c.focusPos
  let pr := roamProgress env a2 c.camera c.focusPos
  let desired := roamDesired env a2 sf0 targetDir targetDistance c.camera c.focusPos
  let sf1 := shipForwardNext sf0 desired env.delta
  let sr := shipRightOf sf1
  let su := shipUpOf sr sf1
  let mv := moveVec sf1 sr su (a2.mode = RoamMode.orbit) a2.orbitStrafe
    (Real.sin (env.nowMs * 0.00043))
  let autoSpeed1 := dampR c.autoSpeed (roamTargetSpeed env a2 targetDistance)
    (if a2.mode = RoamMode.travel then 1.9 else 2.6) env.delta
  let requestedStep := autoSpeed1 * env.delta
  let maxTravelStep := max (targetDistance * 0.32) (a2.arrivalDistance * 0.22)
  let safeStep := if a2.mode = RoamMode.travel then min requestedStep maxTravelStep
    else requestedStep
  let cam1 := addScaled c.camera mv safeStep
  let holdRemainingSeconds := max 0 ((a2.holdUntilMs - env.nowMs) / 1000)
  let etaSeconds : Option ℝ :=
    if a2.mode = RoamMode.travel then
      (if autoSpeed1 > 1e-3 then some (targetDistance / autoSpeed1) else none)
    else some holdRemainingSeconds
  let status : RoamStatus :=
    { mode := modeString a2.mode
      targetType := some (ttypeString a2.targetType)
      focusKey := a2.focusKey
      targetLabel := describeRoamTarget a2.targetType a2.focusKey
      distance := some targetDistance
      etaSeconds := etaSeconds
      holdRemainingSeconds := holdRemainingSeconds
      orbitTurnsProgress := pr.1
      orbitTurnsTarget := a2.orbitTurnsTarget }
  let em := emitStep c.emitSig c.emitTime (some status) env.nowMs
  let cam2 :=
    match env.earth with
    | some pe => clampCameraEarth pe.1 pe.2 cam1
    | none => cam1
  ({ auto := { a2 with orbitTurnsProgress := pr.1, orbitPrevAzimuth := pr.2 }
     autoSpeed := autoSpeed1
     shipForward := sf1
     focusPos := c.focusPos
     waypointPos := c.waypointPos
     camera := cam2
     emitSig := em.1.1
     emitTime := em.1.2 }, em.2)

/-- One frame of the auto-roam branch of the `useFrame` callback
(lines 2132-2333): acquisition, then either the acquiring-status emission or
the tracked-target step.  (The manual fly-mode movement that runs after the
acquiring emission when no target is held, lines 2336 onward, is outside the
auto-pilot model.) -/
def autoFrame (env : RoamFrameEnv) (c : RoamCtl) : RoamCtl × Option (Option RoamStatus) :=
  let c1 := roamAcquire env c
  if c1.auto.hasTarget = false then
    let em := emitStep c1.emitSig c1.emitTime (some acquiringStatus) env.nowMs
    ({ c1 with emitSig := em.1.1, emitTime := em.1.2 }, em.2)
  else roamTrackedStep env c1

/-- The auto-roam reset performed by the effect when `autoRoamEnabled` turns
false (lines 2062-2069): state cleared and a `null` status emitted. -/
def disableReset (c : RoamCtl) (nowMs : ℝ) : RoamCtl :=
  let em := emitStep c.emitSig c.emitTime none nowMs
  { c with
    auto := { c.auto with
      hasTarget := false
      orbitTurnsProgress := 0
      orbitTurnsTarget := 1
      orbitPrevAzimuth := none }
    autoSpeed := 0
    emitSig := em.1.1
    emitTime := em.1.2 }

/-- The type-dependent `arrivalDistance` of a chosen target
(lines 1981-1985 of `chooseAutoRoamTarget`). -/
def arrivalDistanceFor (t : TTypeR) (focusKey : Option String) (focusRadius : ℝ)
    (scientificMode : Bool) : ℝ :=
  if focusKey = some "Earth" then 0.42
  else if t = TTypeR.moon then
    max (focusRadius * (if scientificMode then 1.02 else 1.2))
      (if scientificMode then 4 else 1.5)
  else max (focusRadius * 1.24) (if scientificMode then 45 else 6)

/-- The Earth moon entry of `data.js` (line 66), restricted to the fields
the orbital solvers read. -/
def earthMoonConfig : MoonConfig :=
  { orbitPeriod := 0.0748
    orbitalInclinationDeg := some 5.145
    ascendingNodeDeg := some 125.08 }

/-- The Mars moon Phobos entry of `data.js` (line 80), restricted to the
fields the orbital solvers read. -/
def phobosConfig : MoonConfig :=
  { orbitPeriod := 0.00087
    orbitalInclinationDeg := some 1.08
    ascendingNodeDeg := some 48.0 }

/-! Wiring of the orbit-branch steering pipeline (lines 2214-2251), naming
each intermediate vector of the frame. -/

def steerRadial (camera focus : Vec3) (theta z : ℝ) : Vec3 :=
  orbitRadial camera focus (randomUnitVec theta z)

def steerTangent (camera focus : Vec3) (theta z spin : ℝ) : Vec3 :=
  orbitTangent (steerRadial camera focus theta z) spin

def steerDesired (camera focus : Vec3) (theta z spin : ℝ) : Vec3 :=
  orbitDesired (steerRadial camera focus theta z) (steerTangent camera focus theta z spin)

def steerForward (sf camera focus : Vec3) (theta z spin delta : ℝ) : Vec3 :=
  shipForwardNext sf (steerDesired camera focus theta z spin) delta

def steerRight (sf camera focus : Vec3) (theta z spin delta : ℝ) : Vec3 :=
  shipRightOf (steerForward sf camera focus theta z spin delta)

def steerUp (sf camera focus : Vec3) (theta z spin delta : ℝ) : Vec3 :=
  shipUpOf (steerRight sf camera focus theta z spin delta)
    (steerForward sf camera focus theta z spin delta)

/-! Concrete frame states used to evaluate the model at specific inputs. -/

/-- An auto-roam state orbiting the Sun with an unexpired hold timer. -/
def sunState : AutoState :=
  { hasTarget := true
    mode := RoamMode.orbit
    holdUntilMs := 1000
    travelStartedMs := 0
    targetType := TTypeR.sun
    focusKey := some "Sun"
    arrivalDistance := 20
    orbitSpin := 1
    orbitStrafe := 0.7
    orbitTurnsTarget := 1
    orbitTurnsProgress := 0
    orbitPrevAzimuth := none
    forceInnerNext := false }

/-- An auto-roam state traveling toward a moon target of radius 2
(illustrative units), whose arrival threshold is `max (2 * 1.2) 1.5 = 2.4`. -/
def travelMoonState : AutoState :=
  { hasTarget := true
    mode := RoamMode.travel
    holdUntilMs := 0
    travelStartedMs := 0
    targetType := TTypeR.moon
    focusKey := some "Saturn/Titan"
    arrivalDistance := 2.4
    orbitSpin := 1
    orbitStrafe := 0.7
    orbitTurnsTarget := 1
    orbitTurnsProgress := 0
    orbitPrevAzimuth := none
    forceInnerNext := false }

/-- A frame environment with illustrative units and fixed draw outcomes. -/
def baseEnv : RoamFrameEnv :=
  { scientificMode := false
    autoRoamSpeed := 0.2
    nowMs := 0
    delta := 0.016
    cameraForward := ⟨0, 0, 1⟩
    earth := none
    chooseResult := none
    holdDrawPlanetMoon := 15000
    holdDrawField := 5000
    turnsDrawPlanetMoon := 2
    turnsDrawSun := 1
    turnsDrawField := 0.8
    radialDraw := ⟨1, 0, 0⟩ }

/-- Environment with Earth of radius 1 registered at the origin. -/
def envC1 : RoamFrameEnv := { baseEnv with earth := some (⟨0, 0, 0⟩, 1) }

/-- Controller state orbiting the Sun far from Earth. -/
def ctlC1 : RoamCtl :=
  { auto := sunState
    autoSpeed := 0
    shipForward := ⟨0, 0, 1⟩
    focusPos := ⟨100, 0, 0⟩
    waypointPos := ⟨100, 0, 0⟩
    camera := ⟨50, 0, 0⟩
    emitSig := none
    emitTime := 0 }

/-- Controller state traveling toward the moon target with the camera sitting
exactly on the focus point, `5.8` away from the waypoint. -/
def ctlC3 : RoamCtl :=
  { auto := travelMoonState
    autoSpeed := 0
    shipForward := ⟨0, 0, 1⟩
    focusPos := ⟨100, 0, 0⟩
    waypointPos := ⟨105.8, 0, 0⟩
    camera := ⟨100, 0, 0⟩
    emitSig := none
    emitTime := 0 }

/-- Same state with the camera `1.8` from the waypoint (within the `2.4`
arrival threshold). -/
def ctlC3b : RoamCtl := { ctlC3 with camera := ⟨104, 0, 0⟩ }

/-- Orbit state whose hold timer has expired and turn target is met. -/
def ctlC2r : RoamCtl :=
  { auto := { sunState with holdUntilMs := 0, orbitTurnsTarget := 0 }
    autoSpeed := 0
    shipForward := ⟨0, 0, 1⟩
    focusPos := ⟨100, 0, 0⟩
    waypointPos := ⟨100, 0, 0⟩
    camera := ⟨50, 0, 0⟩
    emitSig := none
    emitTime := 0 }

/-- A chosen target used to exercise re-acquisition after re-enabling. -/
def choiceC4 : Choice :=
  { focus := ⟨200, 0, 0⟩
    waypoint := ⟨205, 0, 0⟩
    ttype := TTypeR.planet
    focusKey := some "Mars"
    arrivalDistance := 6
    orbitStrafe := 0.7
    orbitSpin := 1 }

/-- Environment in which target selection succeeds with `choiceC4`. -/
def envC4 : RoamFrameEnv := { baseEnv with chooseResult := some choiceC4 }

/-- Spec-side formulation: reduction of an angle difference into the
half-open interval `(-π, π]` (the interval named by the specification for
the per-frame azimuth wrap), for inputs in `(-2π, 2π)`. -/
def wrapHalfOpen (d : ℝ) : ℝ :=
  if d ≤ -Real.pi then d + Real.pi * 2
  else if d > Real.pi then d - Real.pi * 2
  else d

end

/-! ### Basic vector lemmas -/

theorem normSq_nonneg (a : Vec3) : 0 ≤ normSq a := by
  unfold normSq
  nlinarith [sq_nonneg a.x, sq_nonneg a.y, sq_nonneg a.z]

theorem lengthV_nonneg (a : Vec3) : 0 ≤ lengthV a := Real.sqrt_nonneg _

theorem lengthV_sq (a : Vec3) : lengthV a * lengthV a = normSq a :=
  Real.mul_self_sqrt (normSq_nonneg a)

theorem lengthV_eq_zero_iff (a : Vec3) : lengthV a = 0 ↔ normSq a = 0 := by
  unfold lengthV
  constructor
  · intro h
    have h2 : normSq a ≤ 0 := Real.sqrt_eq_zero'.mp h
    exact le_antisymm h2 (normSq_nonneg a)
  · intro h; rw [h, Real.sqrt_zero]

theorem lengthV_pos_of_normSq (a : Vec3) (h : 0 < normSq a) : 0 < lengthV a := by
  rcases lt_or_eq_of_le (lengthV_nonneg a) with h1 | h1
  · exact h1
  · exfalso
    have := (lengthV_eq_zero_iff a).mp h1.symm
    rw [this] at h; exact lt_irrefl 0 h

theorem lengthV_smul (t : ℝ) (a : Vec3) : lengthV (smul t a) = |t| * lengthV a := by
  unfold lengthV normSq smul
  simp only
  rw [show t * a.x * (t * a.x) + t * a.y * (t * a.y) + t * a.z * (t * a.z)
      = t ^ 2 * (a.x * a.x + a.y * a.y + a.z * a.z) by ring]
  rw [Real.sqrt_mul (sq_nonneg t), Real.sqrt_sq_eq_abs]

theorem normSq_normalize (a : Vec3) (h : 0 < normSq a) : normSq (normalizeV a) = 1 := by
  have hl : 0 < lengthV a := lengthV_pos_of_normSq a h
  unfold normalizeV
  rw [if_neg (ne_of_gt hl)]
  have h2 : lengthV (smul (lengthV a)⁻¹ a) = 1 := by
    rw [lengthV_smul, abs_of_pos (inv_pos.mpr hl), inv_mul_cancel₀ (ne_of_gt hl)]
  calc normSq (smul (lengthV a)⁻¹ a)
      = lengthV (smul (lengthV a)⁻¹ a) * lengthV (smul (lengthV a)⁻¹ a) :=
        (lengthV_sq _).symm
    _ = 1 := by rw [h2]; ring

theorem lengthV_normalize (a : Vec3) (h : 0 < normSq a) : lengthV (normalizeV a) = 1 := by
  have h1 := normSq_normalize a h
  have h2 := lengthV_sq (normalizeV a)
  rw [h1] at h2
  nlinarith [lengthV_nonneg (normalizeV a)]

/-- Lagrange identity specialised to ℝ³ (used for Cauchy–Schwarz). -/
theorem lagrange_identity (a b : Vec3) :
    normSq a * normSq b = dotV a b * dotV a b + normSq (crossV a b) := by
  unfold normSq dotV crossV
  simp only
  ring

theorem dot_le_lengths (a b : Vec3) : dotV a b ≤ lengthV a * lengthV b := by
  have h1 : dotV a b * dotV a b ≤ normSq a * normSq b := by
    have := lagrange_identity a b
    nlinarith [normSq_nonneg (crossV a b)]
  have h2 : 0 ≤ lengthV a * lengthV b :=
    mul_nonneg (lengthV_nonneg a) (lengthV_nonneg b)
  nlinarith [lengthV_sq a, lengthV_sq b]

theorem normSq_vadd (a b : Vec3) :
    normSq (vadd a b) = normSq a + 2 * dotV a b + normSq b := by
  unfold normSq vadd dotV
  simp only
  ring

theorem lengthV_vadd_le (a b : Vec3) : lengthV (vadd a b) ≤ lengthV a + lengthV b := by
  have h1 : normSq (vadd a b) ≤ (lengthV a + lengthV b) * (lengthV a + lengthV b) := by
    have := normSq_vadd a b
    have := dot_le_lengths a b
    nlinarith [lengthV_sq a, lengthV_sq b]
  have h2 : 0 ≤ lengthV a + lengthV b :=
    add_nonneg (lengthV_nonneg a) (lengthV_nonneg b)
  have h3 := Real.sqrt_le_sqrt h1
  rw [show (lengthV a + lengthV b) * (lengthV a + lengthV b)
      = (lengthV a + lengthV b) ^ 2 by ring] at h3
  rw [Real.sqrt_sq h2] at h3
  calc lengthV (vadd a b) = Real.sqrt (normSq (vadd a b)) := rfl
    _ ≤ lengthV a + lengthV b := h3

theorem lengthV_vadd_ge (a b : Vec3) : lengthV b - lengthV a ≤ lengthV (vadd a b) := by
  have h1 : lengthV b ≤ lengthV (vadd a b) + lengthV a := by
    have h2 : b = vadd (vadd a b) (smul (-1) a) := by
      unfold vadd smul
      cases a; cases b; simp only [Vec3.mk.injEq]
      refine ⟨by ring, by ring, by ring⟩
    calc lengthV b = lengthV (vadd (vadd a b) (smul (-1) a)) := by rw [← h2]
      _ ≤ lengthV (vadd a b) + lengthV (smul (-1) a) := lengthV_vadd_le _ _
      _ = lengthV (vadd a b) + lengthV a := by
          rw [lengthV_smul]; norm_num
  linarith

/-! ### JS numeric lemmas -/

theorem jsFmod_bounds_nonneg (n m : ℝ) (hm : 0 < m) (hn : 0 ≤ n) :
    0 ≤ jsFmod n m ∧ jsFmod n m < m := by
  have ht : jsTrunc (n / m) = ⌊n / m⌋ := by
    unfold jsTrunc
    rw [if_pos (div_nonneg hn (le_of_lt hm))]
  have h1 : ((⌊n / m⌋ : ℤ) : ℝ) ≤ n / m := Int.floor_le _
  have h2 : n / m < ⌊n / m⌋ + 1 := Int.lt_floor_add_one _
  unfold jsFmod
  rw [ht]
  constructor
  · have := mul_le_mul_of_nonneg_left h1 (le_of_lt hm)
    rw [mul_div_cancel₀ n (ne_of_gt hm)] at this
    linarith
  · have := mul_lt_mul_of_pos_left h2 hm
    rw [mul_div_cancel₀ n (ne_of_gt hm)] at this
    nlinarith

theorem jsFmod_bounds_neg (n m : ℝ) (hm : 0 < m) (hn : n < 0) :
    -m < jsFmod n m ∧ jsFmod n m ≤ 0 := by
  have hd : n / m < 0 := div_neg_of_neg_of_pos hn hm
  have ht : jsTrunc (n / m) = ⌈n / m⌉ := by
    unfold jsTrunc
    rw [if_neg (not_le.mpr hd)]
  have h1 : n / m ≤ ((⌈n / m⌉ : ℤ) : ℝ) := Int.le_ceil _
  have h2 : ((⌈n / m⌉ : ℤ) : ℝ) < n / m + 1 := Int.ceil_lt_add_one _
  unfold jsFmod
  rw [ht]
  constructor
  · have := mul_lt_mul_of_pos_left h2 hm
    rw [mul_add, mul_div_cancel₀ n (ne_of_gt hm)] at this
    linarith
  · have := mul_le_mul_of_nonneg_left h1 (le_of_lt hm)
    rw [mul_div_cancel₀ n (ne_of_gt hm)] at this
    linarith

theorem jsFmod_gt_neg (n m : ℝ) (hm : 0 < m) : -m < jsFmod n m := by
  rcases le_or_lt 0 n with hn | hn
  · have := (jsFmod_bounds_nonneg n m hm hn).1
    linarith
  · exact (jsFmod_bounds_neg n m hm hn).1

theorem euclideanModulo_bounds (n m : ℝ) (hm : 0 < m) :
    0 ≤ euclideanModulo n m ∧ euclideanModulo n m < m := by
  unfold euclideanModulo
  have h1 : -m < jsFmod n m := jsFmod_gt_neg n m hm
  have h2 : 0 ≤ jsFmod n m + m := by linarith
  exact jsFmod_bounds_nonneg _ m hm h2

theorem jsAtan2_one_one : jsAtan2 1 1 = Real.pi / 4 := by
  unfold jsAtan2
  rw [if_pos (by norm_num : (0 : ℝ) < 1)]
  norm_num [Real.arctan_one]

theorem jsAtan2_mem (y x : ℝ) : -Real.pi < jsAtan2 y x ∧ jsAtan2 y x ≤ Real.pi := by
  have hpi : 0 < Real.pi := Real.pi_pos
  have hub : ∀ t : ℝ, Real.arctan t < Real.pi / 2 := Real.arctan_lt_pi_div_two
  have hlb : ∀ t : ℝ, -(Real.pi / 2) < Real.arctan t := Real.neg_pi_div_two_lt_arctan
  unfold jsAtan2
  rcases lt_trichotomy 0 x with hx | hx | hx
  · rw [if_pos hx]
    constructor
    · have := hlb (y / x); linarith
    · have := hub (y / x); linarith
  · rw [if_neg (by rw [← hx]; exact lt_irrefl 0), if_neg (by rw [← hx]; exact lt_irrefl 0)]
    rcases lt_trichotomy 0 y with hy | hy | hy
    · rw [if_pos hy]; constructor <;> linarith
    · rw [if_neg (by rw [← hy]; exact lt_irrefl 0), if_neg (by rw [← hy]; exact lt_irrefl 0)]
      constructor <;> linarith
    · rw [if_neg (by exact fun h => absurd hy (not_lt.mpr (le_of_lt h))), if_pos hy]
      constructor <;> linarith
  · rw [if_neg (by exact fun h => absurd hx (not_lt.mpr (le_of_lt h))), if_pos hx]
    rcases le_or_lt 0 y with hy | hy
    · rw [if_pos hy]
      have hdiv : y / x ≤ 0 := div_nonpos_of_nonneg_of_nonpos hy (le_of_lt hx)
      have h0 : Real.arctan (y / x) ≤ 0 := by
        have := Real.arctan_strictMono.monotone hdiv
        rwa [Real.arctan_zero] at this
      constructor
      · have := hlb (y / x); linarith
      · linarith
    · rw [if_neg (not_le.mpr hy)]
      have hdiv : 0 < y / x := div_pos_of_neg_of_neg hy hx
      have h0 : 0 < Real.arctan (y / x) := by
        have := Real.arctan_strictMono hdiv
        rwa [Real.arctan_zero] at this
      constructor
      · linarith
      · have := hub (y / x); linarith

theorem jsAtan2_pos_smul (k y x : ℝ) (hk : 0 < k) :
    jsAtan2 (k * y) (k * x) = jsAtan2 y x := by
  have hdiv : k * y / (k * x) = y / x := by
    rcases eq_or_ne x 0 with hx | hx
    · rw [hx]; simp
    · field_simp; ring
  unfold jsAtan2
  have hxpos : (0 < k * x) ↔ (0 < x) := by
    constructor
    · intro h; by_contra hc; push_neg at hc
      have : k * x ≤ 0 := mul_nonpos_of_nonneg_of_nonpos (le_of_lt hk) hc
      linarith
    · intro h; exact mul_pos hk h
  have hxneg : (k * x < 0) ↔ (x < 0) := by
    constructor
    · intro h; by_contra hc; push_neg at hc
      have : 0 ≤ k * x := mul_nonneg (le_of_lt hk) hc
      linarith
    · intro h; exact mul_neg_of_pos_of_neg hk h
  have hynn : (0 ≤ k * y) ↔ (0 ≤ y) := by
    constructor
    · intro h; by_contra hc; push_neg at hc
      have : k * y < 0 := mul_neg_of_pos_of_neg hk hc
      linarith
    · intro h; exact mul_nonneg (le_of_lt hk) h
  have hypos : (0 < k * y) ↔ (0 < y) := by
    constructor
    · intro h; by_contra hc; push_neg at hc
      have : k * y ≤ 0 := mul_nonpos_of_nonneg_of_nonpos (le_of_lt hk) hc
      linarith
    · intro h; exact mul_pos hk h
  have hyneg : (k * y < 0) ↔ (y < 0) := by
    constructor
    · intro h; by_contra hc; push_neg at hc
      have : 0 ≤ k * y := mul_nonneg (le_of_lt hk) hc
      linarith
    · intro h; exact mul_neg_of_pos_of_neg hk h
  by_cases h1 : 0 < x
  · rw [if_pos h1, if_pos (hxpos.mpr h1), hdiv]
  · rw [if_neg h1, if_neg (fun h => h1 (hxpos.mp h))]
    by_cases h2 : x < 0
    · rw [if_pos h2, if_pos (hxneg.mpr h2), hdiv]
      by_cases h3 : 0 ≤ y
      · rw [if_pos h3, if_pos (hynn.mpr h3)]
      · rw [if_neg h3, if_neg (fun h => h3 (hynn.mp h))]
    · rw [if_neg h2, if_neg (fun h => h2 (hxneg.mp h))]
      by_cases h3 : 0 < y
      · rw [if_pos h3, if_pos (hypos.mpr h3)]
      · rw [if_neg h3, if_neg (fun h => h3 (hypos.mp h))]
        by_cases h4 : y < 0
        · rw [if_pos h4, if_pos (hyneg.mpr h4)]
        · rw [if_neg h4, if_neg (fun h => h4 (hyneg.mp h))]

/-! ### Wrap lemmas -/

theorem wrapPi_abs_le (d : ℝ) (h1 : -(Real.pi * 2) < d) (h2 : d < Real.pi * 2) :
    |wrapPi d| ≤ Real.pi := by
  have hpi : 0 < Real.pi := Real.pi_pos
  unfold wrapPi
  by_cases hc1 : d > Real.pi
  · rw [if_pos hc1, abs_le]; constructor <;> linarith
  · rw [if_neg hc1]
    by_cases hc2 : d < -Real.pi
    · rw [if_pos hc2, abs_le]; constructor <;> linarith
    · rw [if_neg hc2, abs_le]; push_neg at hc1 hc2; constructor <;> linarith

theorem wrapPi_abs_eq_halfOpen (d : ℝ) (h1 : -(Real.pi * 2) < d) (h2 : d < Real.pi * 2) :
    |wrapPi d| = |wrapHalfOpen d| := by
  have hpi : 0 < Real.pi := Real.pi_pos
  unfold wrapPi wrapHalfOpen
  by_cases hc1 : d > Real.pi
  · rw [if_pos hc1, if_neg (by push_neg; linarith), if_pos hc1]
  · rw [if_neg hc1]
    push_neg at hc1
    by_cases hc2 : d < -Real.pi
    · rw [if_pos hc2, if_pos (le_of_lt hc2)]
    · push_neg at hc2
      rcases eq_or_lt_of_le hc2 with heq | hlt
      · rw [if_neg (not_lt.mpr hc2), if_pos (le_of_eq heq.symm)]
        rw [← heq]
        rw [abs_of_nonpos (by linarith), abs_of_nonneg (by linarith)]
        ring
      · rw [if_neg (not_lt.mpr hc2), if_neg (not_le.mpr hlt), if_neg (not_lt.mpr hc1)]

theorem wrapHalfOpen_mem (d : ℝ) (h1 : -(Real.pi * 2) < d) (h2 : d < Real.pi * 2) :
    -Real.pi < wrapHalfOpen d ∧ wrapHalfOpen d ≤ Real.pi := by
  have hpi : 0 < Real.pi := Real.pi_pos
  unfold wrapHalfOpen
  by_cases hc1 : d ≤ -Real.pi
  · rw [if_pos hc1]; constructor <;> linarith
  · rw [if_neg hc1]
    push_neg at hc1
    by_cases hc2 : d > Real.pi
    · rw [if_pos hc2]; constructor <;> linarith
    · rw [if_neg hc2]; push_neg at hc2; exact ⟨hc1, hc2⟩

/-! ### Concrete square roots and unit vectors -/

theorem sqrt_eval (a b : ℝ) (hb : 0 ≤ b) (h : b * b = a) : Real.sqrt a = b := by
  rw [← h]; exact Real.sqrt_mul_self hb

theorem normSq_randomUnitVec (theta zdraw : ℝ) (h : zdraw * zdraw ≤ 1) :
    normSq (randomUnitVec theta zdraw) = 1 := by
  unfold randomUnitVec normSq
  simp only
  have hmax : max 0 (1 - zdraw * zdraw) = 1 - zdraw * zdraw := by
    rw [max_eq_right]; linarith
  have hsq : Real.sqrt (max 0 (1 - zdraw * zdraw)) * Real.sqrt (max 0 (1 - zdraw * zdraw))
      = 1 - zdraw * zdraw := by
    rw [Real.mul_self_sqrt (le_max_left _ _), hmax]
  have hsc : Real.sin theta * Real.sin theta + Real.cos theta * Real.cos theta = 1 := by
    have := Real.sin_sq_add_cos_sq theta
    nlinarith [this]
  nlinarith [hsq, hsc]

/-! ### Association-list lemmas for the orbit-angle solver -/

theorem alookup_upsert_self (l : List (String × ℝ)) (k : String) (v : ℝ) :
    alookup (upsertA l k v) k = some v := by
  induction l with
  | nil => simp [upsertA, alookup]
  | cons hd tl ih =>
    rcases hd with ⟨k0, v0⟩
    by_cases h : k0 = k
    · simp [upsertA, alookup, h]
    · simp only [upsertA, alookup, if_neg h]
      exact ih

theorem alookup_upsert_other (l : List (String × ℝ)) (k k2 : String) (v : ℝ)
    (h : k ≠ k2) : alookup (upsertA l k v) k2 = alookup l k2 := by
  induction l with
  | nil => simp [upsertA, alookup, h]
  | cons hd tl ih =>
    rcases hd with ⟨k0, v0⟩
    by_cases h0 : k0 = k
    · simp only [upsertA, if_pos h0, alookup]
      rw [if_neg h, if_neg (h0 ▸ h)]
    · simp only [upsertA, if_neg h0, alookup]
      by_cases h2 : k0 = k2
      · rw [if_pos h2, if_pos h2]
      · rw [if_neg h2, if_neg h2]
        exact ih


theorem vecfold_lookup (vec : String → Option Vec3) (l : List String) :
    ∀ (acc : List (String × ℝ)) (p : String) (v : Vec3),
      vec p = some v →
      (p ∈ l ∨ alookup acc p = some (jsAtan2 v.z v.x)) →
      alookup (l.foldl (fun acc2 q =>
        match vec q with
        | some w => upsertA acc2 q (jsAtan2 w.z w.x)
        | none => acc2) acc) p = some (jsAtan2 v.z v.x) := by
  induction l with
  | nil =>
    intro acc p v hv hor
    rcases hor with hmem | hacc
    · exact absurd hmem (List.not_mem_nil p)
    · simpa [List.foldl] using hacc
  | cons q tl ih =>
    intro acc p v hv hor
    rw [List.foldl_cons]
    by_cases hpq : p = q
    · subst hpq
      apply ih _ p v hv
      right
      rw [hv]
      exact alookup_upsert_self acc p (jsAtan2 v.z v.x)
    · rcases hor with hmem | hacc
      · rcases List.mem_cons.mp hmem with hh | htl
        · exact absurd hh hpq
        · exact ih _ p v hv (Or.inl htl)
      · apply ih _ p v hv
        right
        cases hvq : vec q with
        | some w =>
          simp only [hvq]
          rw [alookup_upsert_other _ q p _ (fun h => hpq h.symm)]
          exact hacc
        | none => simpa [hvq] using hacc

theorem skipfold_preserves (helio : String → Option (ℝ × ℝ)) (rnd : String → ℝ)
    (l : List String) :
    ∀ (acc : List (String × ℝ)) (p : String) (x : ℝ),
      alookup acc p = some x →
      alookup (l.foldl (fun acc2 q =>
        if (alookup acc2 q).isSome then acc2
        else
          match helio q with
          | some hv => upsertA acc2 q (jsAtan2 hv.2 hv.1)
          | none => upsertA acc2 q (rnd q * (Real.pi * 2))) acc) p = some x := by
  induction l with
  | nil =>
    intro acc p x hacc
    simpa [List.foldl] using hacc
  | cons q tl ih =>
    intro acc p x hacc
    rw [List.foldl_cons]
    by_cases hpq : q = p
    · subst hpq
      rw [if_pos (by rw [hacc]; rfl)]
      exact ih acc q x hacc
    · by_cases hs : (alookup acc q).isSome
      · rw [if_pos hs]
        exact ih acc p x hacc
      · rw [if_neg hs]
        apply ih _ p x
        cases hq : helio q with
        | some hv =>
          simp only [hq]
          rw [alookup_upsert_other _ q p _ hpq]
          exact hacc
        | none =>
          simp only [hq]
          rw [alookup_upsert_other _ q p _ hpq]
          exact hacc

/-! ### Claim C5 -/

/-- C5: for every moon, the stored raw inclination (configured inclination in
degrees, folded with `euclideanModulo` into `[0°, 360°)` and mirrored above
`180°`) lies in `[0°, 180°]`; the rendered tilt equals `180°` minus that
inclination when it exceeds `90°` and the inclination itself otherwise; and
the retrograde flag holds iff the configured orbit period is negative or the
folded raw inclination exceeds `90°`. -/
theorem claim_C5_moon_inclination_tilt_retrograde :
    ∀ orbitInclinationRad orbitPeriod : ℝ,
      (0 ≤ rawInclinationDegOf orbitInclinationRad ∧
        rawInclinationDegOf orbitInclinationRad ≤ 180) ∧
      effectiveInclinationRadOf orbitInclinationRad =
        degToRad (if rawInclinationDegOf orbitInclinationRad > 90 then
            180 - rawInclinationDegOf orbitInclinationRad
          else rawInclinationDegOf orbitInclinationRad) ∧
      (moonRetrograde orbitPeriod orbitInclinationRad ↔
        (orbitPeriod < 0 ∨ rawInclinationDegOf orbitInclinationRad > 90)) := by
  intro inc p
  have hb := euclideanModulo_bounds (radToDeg inc) 360 (by norm_num)
  refine ⟨?_, rfl, Iff.rfl⟩
  have hr : rawInclinationDegOf inc =
      if euclideanModulo (radToDeg inc) 360 > 180 then
        360 - euclideanModulo (radToDeg inc) 360
      else euclideanModulo (radToDeg inc) 360 := rfl
  rw [hr]
  split_ifs with hc
  · constructor <;> linarith [hb.1, hb.2]
  · push_neg at hc
    constructor <;> linarith [hb.1]

/-! ### Claim C7 -/

/-- C7: `hashPhase` is the pure function sending a string to
`(FNV1a32 (s) % 360) / 360`, where the 32-bit FNV-1a hash starts at
`2166136261` and for each code unit in order XORs it in and multiplies by
`16777619` modulo `2 ^ 32`; the result is a multiple of `1 / 360` lying in
`[0, 1)`.  (Determinism is inherent: the model is a function of the string
alone.) -/
theorem claim_C7_hashPhase_fnv1a :
    ∀ s : String,
      hashPhase s = ((fnv1a (strCodes s) % 360 : ℕ) : ℚ) / 360 ∧
      fnv1a [] = 2166136261 ∧
      (∀ (codes : List ℕ) (c : ℕ),
        fnv1a (codes ++ [c]) = ((fnv1a codes ^^^ c) * 16777619) % 2 ^ 32) ∧
      (∃ n : ℕ, n < 360 ∧ hashPhase s = (n : ℚ) / 360) ∧
      0 ≤ hashPhase s ∧ hashPhase s < 1 := by
  intro s
  refine ⟨rfl, rfl, ?_, ⟨fnv1a (strCodes s) % 360, Nat.mod_lt _ (by norm_num), rfl⟩, ?_, ?_⟩
  · intro codes c
    unfold fnv1a
    rw [List.foldl_append]
    rfl
  · unfold hashPhase
    positivity
  · unfold hashPhase
    rw [div_lt_one (by norm_num)]
    exact_mod_cast Nat.mod_lt (fnv1a (strCodes s)) (by norm_num)

/-! ### Claim C6 -/

/-- C6: for every planet whose name has a vector entry in the ephemeris
snapshot, the solved initial orbital angle is `atan2 (vector.z, vector.x)`;
for the fixed vector `{x: 1, y: 0, z: 1}` the angle is `atan2 (1, 1) = π/4`
exactly. -/
theorem claim_C6_snapshot_orbit_angle :
    ∀ (planets : List String) (vec : String → Option Vec3)
      (helio : String → Option (ℝ × ℝ)) (rnd : String → ℝ) (p : String) (v : Vec3),
      (p ∈ planets → vec p = some v →
        alookup (startupOrbitAngles planets vec helio rnd) p = some (jsAtan2 v.z v.x)) ∧
      jsAtan2 1 1 = Real.pi / 4 := by
  intro planets vec helio rnd p v
  constructor
  · intro hmem hv
    unfold startupOrbitAngles
    apply skipfold_preserves
    exact vecfold_lookup vec planets [] p v hv (Or.inl hmem)
  · exact jsAtan2_one_one

/-- Witness for C6 at a one-planet snapshot holding the vector `(1, 0, 1)`. -/
theorem claim_C6_snapshot_orbit_angle_witness :
    alookup (startupOrbitAngles ["Mercury"] (fun _ => some ⟨1, 0, 1⟩)
      (fun _ => none) (fun _ => 0)) "Mercury" = some (Real.pi / 4) := by
  have h := claim_C6_snapshot_orbit_angle ["Mercury"] (fun _ => some ⟨1, 0, 1⟩)
    (fun _ => none) (fun _ => 0) "Mercury" ⟨1, 0, 1⟩
  rw [h.1 (by simp) rfl]
  show some (jsAtan2 1 1) = some (Real.pi / 4)
  rw [h.2]

/-! ### Claim C9 -/

/-- Counterexample to C9 as stated: Earth's Moon has a configured inclination
of `5.145°` in `data.js`, yet the scientific pose solver stores inclination
`0` for it (and the claimed direct read would give `degToRad 5.145 ≠ 0`). -/
theorem claim_C9_counterexample :
    (scientificMoonEntry "Earth" "Moon" 0 earthMoonConfig none).inclinationRad = 0 ∧
    earthMoonConfig.orbitalInclinationDeg = some 5.145 ∧
    degToRad 5.145 ≠ 0 := by
  refine ⟨?_, rfl, ?_⟩
  · show (scientificFallbackEntry "Earth" "Moon" 0 earthMoonConfig).inclinationRad = 0
    unfold scientificFallbackEntry
    simp only [moonKey]
    rw [if_pos (by decide : ("Earth" ++ "/" ++ "Moon" : String) = "Earth/Moon")]
  · have h : (0 : ℝ) < degToRad 5.145 := by
      unfold degToRad
      positivity
    exact ne_of_gt h

/-- C9 amended: both pose solvers read configured inclination and ascending
node directly (degrees converted to radians); when a value is missing the
ascending node falls back to a hash-derived angle while the inclination falls
back to `0` (not to a hash); and the scientific solver forces Earth's Moon to
inclination `0` and ascending node `0` regardless of configuration. -/
theorem claim_C9_amended_plane_orientation_reads :
    ∀ (p n : String) (days : ℝ) (m : MoonConfig) (v : Option Vec3),
      (∀ d, m.orbitalInclinationDeg = some d →
        (startupMoonEntry p n days m).inclinationRad = degToRad d) ∧
      (m.orbitalInclinationDeg = none →
        (startupMoonEntry p n days m).inclinationRad = degToRad 0) ∧
      (∀ d, m.ascendingNodeDeg = some d →
        (startupMoonEntry p n days m).ascendingNodeRad = degToRad d) ∧
      (m.ascendingNodeDeg = none →
        (startupMoonEntry p n days m).ascendingNodeRad =
          degToRad (hashPhaseR (moonKey p n ++ ":node") * 360)) ∧
      (moonKey p n ≠ "Earth/Moon" →
        ((∀ d, m.orbitalInclinationDeg = some d →
            (scientificMoonEntry p n days m v).inclinationRad = degToRad d) ∧
          (m.orbitalInclinationDeg = none →
            (scientificMoonEntry p n days m v).inclinationRad = degToRad 0) ∧
          (∀ d, m.ascendingNodeDeg = some d →
            (scientificMoonEntry p n days m v).ascendingNodeRad = degToRad d) ∧
          (m.ascendingNodeDeg = none →
            (scientificMoonEntry p n days m v).ascendingNodeRad =
              degToRad (hashPhaseR (moonKey p n ++ ":node") * 360)))) ∧
      (moonKey p n = "Earth/Moon" →
        (scientificMoonEntry p n days m v).inclinationRad = 0 ∧
        (scientificMoonEntry p n days m v).ascendingNodeRad = 0) := by
  intro p n days m v
  refine ⟨?_, ?_, ?_, ?_, ?_, ?_⟩
  · intro d hd
    unfold startupMoonEntry
    simp only [hd, Option.getD_some]
  · intro hd
    unfold startupMoonEntry
    simp only [hd, Option.getD_none]
  · intro d hd
    unfold startupMoonEntry
    simp only [hd, Option.getD_some]
  · intro hd
    unfold startupMoonEntry
    simp only [hd, Option.getD_none]
  · intro hne
    have hred : ∀ fld : MoonOrbitEntry → ℝ,
        fld (scientificMoonEntry p n days m v) =
          fld (match v with
            | some w => scientificHorizonsEntry p n w m
            | none => scientificFallbackEntry p n days m) := fun _ => rfl
    cases v with
    | some w =>
      refine ⟨?_, ?_, ?_, ?_⟩ <;>
        first
        | (intro d hd
           show (scientificHorizonsEntry p n w m).inclinationRad = _
           unfold scientificHorizonsEntry
           simp only [hd, Option.getD_some, if_neg hne])
        | (intro hd
           show (scientificHorizonsEntry p n w m).inclinationRad = _
           unfold scientificHorizonsEntry
           simp only [hd, Option.getD_none, if_neg hne])
        | (intro d hd
           show (scientificHorizonsEntry p n w m).ascendingNodeRad = _
           unfold scientificHorizonsEntry
           simp only [hd, Option.getD_some, if_neg hne])
        | (intro hd
           show (scientificHorizonsEntry p n w m).ascendingNodeRad = _
           unfold scientificHorizonsEntry
           simp only [hd, Option.getD_none, if_neg hne])
    | none =>
      refine ⟨?_, ?_, ?_, ?_⟩ <;>
        first
        | (intro d hd
           show (scientificFallbackEntry p n days m).inclinationRad = _
           unfold scientificFallbackEntry
           simp only [hd, Option.getD_some, if_neg hne])
        | (intro hd
           show (scientificFallbackEntry p n days m).inclinationRad = _
           unfold scientificFallbackEntry
           simp only [hd, Option.getD_none, if_neg hne])
        | (intro d hd
           show (scientificFallbackEntry p n days m).ascendingNodeRad = _
           unfold scientificFallbackEntry
           simp only [hd, Option.getD_some, if_neg hne])
        | (intro hd
           show (scientificFallbackEntry p n days m).ascendingNodeRad = _
           unfold scientificFallbackEntry
           simp only [hd, Option.getD_none, if_neg hne])
  · intro heq
    cases v with
    | some w =>
      constructor
      · show (scientificHorizonsEntry p n w m).inclinationRad = 0
        unfold scientificHorizonsEntry
        simp only [if_pos heq]
      · show (scientificHorizonsEntry p n w m).ascendingNodeRad = 0
        unfold scientificHorizonsEntry
        simp only [if_pos heq]
    | none =>
      constructor
      · show (scientificFallbackEntry p n days m).inclinationRad = 0
        unfold scientificFallbackEntry
        simp only [if_pos heq]
      · show (scientificFallbackEntry p n days m).ascendingNodeRad = 0
        unfold scientificFallbackEntry
        simp only [if_pos heq]

/-- Witness for the amended C9 at the configured Phobos entry. -/
theorem claim_C9_amended_witness :
    (scientificMoonEntry "Mars" "Phobos" 0 phobosConfig none).inclinationRad =
      degToRad 1.08 ∧
    (startupMoonEntry "Mars" "Phobos" 0 phobosConfig).ascendingNodeRad =
      degToRad 48.0 := by
  have h := claim_C9_amended_plane_orientation_reads "Mars" "Phobos" 0 phobosConfig none
  exact ⟨(h.2.2.2.2.1
      (by decide : moonKey "Mars" "Phobos" ≠ "Earth/Moon")).1 1.08 rfl,
    h.2.2.1 48.0 rfl⟩

/-! ### Further vector lemmas for the steering pipeline -/

theorem normSq_smul (t : ℝ) (a : Vec3) : normSq (smul t a) = t ^ 2 * normSq a := by
  unfold normSq smul
  simp only
  ring

theorem dotV_smul_left (t : ℝ) (a b : Vec3) : dotV (smul t a) b = t * dotV a b := by
  unfold dotV smul
  simp only
  ring

theorem dotV_cross_left (a b : Vec3) : dotV (crossV a b) a = 0 := by
  unfold dotV crossV
  simp only
  ring

theorem dotV_cross_right (a b : Vec3) : dotV (crossV a b) b = 0 := by
  unfold dotV crossV
  simp only
  ring

theorem dotV_normalize_zero (a b : Vec3) (h : dotV a b = 0) :
    dotV (normalizeV a) b = 0 := by
  unfold normalizeV
  split_ifs with hl
  · exact h
  · rw [dotV_smul_left, h, mul_zero]

theorem normSq_cross (a b : Vec3) :
    normSq (crossV a b) = normSq a * normSq b - dotV a b * dotV a b := by
  have := lagrange_identity a b
  linarith

theorem comb_normSq (s1 s2 : ℝ) (a b : Vec3) :
    normSq (vadd (smul s1 a) (smul s2 b)) =
      s1 ^ 2 * normSq a + 2 * s1 * s2 * dotV a b + s2 ^ 2 * normSq b := by
  unfold normSq vadd smul dotV
  simp only
  ring

theorem vadd_comm_v (a b : Vec3) : vadd a b = vadd b a := by
  unfold vadd
  simp only [Vec3.mk.injEq]
  refine ⟨by ring, by ring, by ring⟩

theorem lengthV_vadd_ge_left (a b : Vec3) :
    lengthV a - lengthV b ≤ lengthV (vadd a b) := by
  rw [vadd_comm_v]
  exact lengthV_vadd_ge b a

theorem normSq_pos_of_length_pos (a : Vec3) (h : 0 < lengthV a) : 0 < normSq a := by
  have := lengthV_sq a
  nlinarith

/-! ### Unit-vector facts for the guarded steering fallbacks -/

theorem orbitRadial_unit (camera focus rnd : Vec3) (h : normSq rnd = 1) :
    normSq (orbitRadial camera focus rnd) = 1 := by
  show normSq (normalizeV
    (if normSq (vsub camera focus) < 1e-6 then rnd else vsub camera focus)) = 1
  split_ifs with hc
  · exact normSq_normalize rnd (by rw [h]; norm_num)
  · push_neg at hc
    exact normSq_normalize _ (by nlinarith)

theorem steerRadial_unit (camera focus : Vec3) (theta z : ℝ) (h : z * z ≤ 1) :
    normSq (steerRadial camera focus theta z) = 1 :=
  orbitRadial_unit camera focus _ (normSq_randomUnitVec theta z h)

theorem orbitTangent_unit (radial : Vec3) (spin : ℝ)
    (hs : spin = 1 ∨ spin = -1) (hr : normSq radial = 1) :
    normSq (orbitTangent radial spin) = 1 := by
  unfold orbitTangent
  rw [normSq_smul]
  have hs2 : spin ^ 2 = 1 := by rcases hs with h | h <;> rw [h] <;> norm_num
  rw [hs2, one_mul]
  split_ifs with hc
  · -- first cross degenerate: fall back to the x-axis cross
    apply normSq_normalize
    have h1 : normSq (crossV worldUpV radial) =
        radial.z * radial.z + radial.x * radial.x := by
      unfold normSq crossV worldUpV
      simp only
      ring
    have h2 : normSq (crossV axisXV radial) =
        radial.z * radial.z + radial.y * radial.y := by
      unfold normSq crossV axisXV
      simp only
      ring
    rw [h1] at hc
    rw [h2]
    have h3 : radial.x * radial.x + radial.y * radial.y + radial.z * radial.z = 1 := hr
    nlinarith
  · push_neg at hc
    apply normSq_normalize
    nlinarith

theorem orbitTangent_orth (radial : Vec3) (spin : ℝ) :
    dotV (orbitTangent radial spin) radial = 0 := by
  unfold orbitTangent
  rw [dotV_smul_left]
  split_ifs with hc
  · rw [dotV_normalize_zero _ _ (dotV_cross_right axisXV radial), mul_zero]
  · rw [dotV_normalize_zero _ _ (dotV_cross_right worldUpV radial), mul_zero]

theorem orbitDesired_unit (radial tangent : Vec3) (hr : normSq radial = 1)
    (ht : normSq tangent = 1) (ho : dotV tangent radial = 0) :
    normSq (orbitDesired radial tangent) = 1 := by
  unfold orbitDesired
  apply normSq_normalize
  rw [comb_normSq, ht, hr, ho]
  norm_num

theorem shipForwardNext_unit (sf desired : Vec3) (delta : ℝ)
    (hd : normSq desired = 1) :
    normSq (shipForwardNext sf desired delta) = 1 := by
  show normSq (normalizeV
    (if normSq (vlerp sf desired (clampR (delta * 1.7) 0.03 0.24)) < 1e-6 then desired
     else vlerp sf desired (clampR (delta * 1.7) 0.03 0.24))) = 1
  split_ifs with hc
  · exact normSq_normalize desired (by rw [hd]; norm_num)
  · push_neg at hc
    exact normSq_normalize _ (by nlinarith)

theorem shipRightOf_unit (f : Vec3) : normSq (shipRightOf f) = 1 := by
  show normSq (normalizeV
    (if normSq (crossV f worldUpV) < 1e-6 then (⟨1, 0, 0⟩ : Vec3)
     else crossV f worldUpV)) = 1
  split_ifs with hc
  · apply normSq_normalize
    show (0 : ℝ) < 1 * 1 + 0 * 0 + 0 * 0
    norm_num
  · push_neg at hc
    exact normSq_normalize _ (by nlinarith)

theorem normalizeV_e1 : normalizeV (⟨1, 0, 0⟩ : Vec3) = ⟨1, 0, 0⟩ := by
  unfold normalizeV
  have hl : lengthV (⟨1, 0, 0⟩ : Vec3) = 1 := by
    unfold lengthV normSq
    simp only
    rw [show (1 : ℝ) * 1 + 0 * 0 + 0 * 0 = 1 by ring, Real.sqrt_one]
  rw [if_neg (by rw [hl]; norm_num), hl]
  unfold smul
  norm_num

theorem shipUpOf_unit (f : Vec3) (hf : normSq f = 1) :
    normSq (shipUpOf (shipRightOf f) f) = 1 := by
  have hfx : f.x * f.x + f.y * f.y + f.z * f.z = 1 := hf
  unfold shipUpOf
  apply normSq_normalize
  have hcross : normSq (crossV f worldUpV) = f.z * f.z + f.x * f.x := by
    unfold normSq crossV worldUpV
    simp only
    ring
  have hr : shipRightOf f = normalizeV
      (if normSq (crossV f worldUpV) < 1e-6 then (⟨1, 0, 0⟩ : Vec3)
       else crossV f worldUpV) := rfl
  by_cases hc : normSq (crossV f worldUpV) < 1e-6
  · rw [hr, if_pos hc, normalizeV_e1]
    have h1 : normSq (crossV (⟨1, 0, 0⟩ : Vec3) f) = f.z * f.z + f.y * f.y := by
      unfold normSq crossV
      simp only
      ring
    rw [h1]
    rw [hcross] at hc
    nlinarith
  · rw [hr, if_neg hc]
    push_neg at hc
    have hrs : normSq (normalizeV (crossV f worldUpV)) = 1 :=
      normSq_normalize _ (by nlinarith)
    have hdot : dotV (normalizeV (crossV f worldUpV)) f = 0 :=
      dotV_normalize_zero _ _ (dotV_cross_left f worldUpV)
    rw [normSq_cross, hrs, hf, hdot]
    norm_num

theorem moveVec_unit (f r u : Vec3) (orbitMode : Prop) (strafe sinv : ℝ)
    (hf : normSq f = 1) (hr : normSq r = 1) (hu : normSq u = 1)
    (h1 : 0.55 ≤ strafe) (h2 : strafe ≤ 0.95) (h3 : -1 ≤ sinv) (h4 : sinv ≤ 1) :
    normSq (moveVec f r u orbitMode strafe sinv) = 1 := by
  unfold moveVec
  have hlf : lengthV f = 1 := by
    have := lengthV_sq f
    rw [hf] at this
    nlinarith [lengthV_nonneg f]
  have hlr : lengthV r = 1 := by
    have := lengthV_sq r
    rw [hr] at this
    nlinarith [lengthV_nonneg r]
  have hlu : lengthV u = 1 := by
    have := lengthV_sq u
    rw [hu] at this
    nlinarith [lengthV_nonneg u]
  split_ifs with hc
  · apply normSq_normalize
    have hstep1 : lengthV (addScaled f r (strafe * 0.22)) ≥ 1 - strafe * 0.22 := by
      have := lengthV_vadd_ge_left f (smul (strafe * 0.22) r)
      have hsm : lengthV (smul (strafe * 0.22) r) = strafe * 0.22 := by
        rw [lengthV_smul, hlr, mul_one, abs_of_nonneg (by linarith)]
      unfold addScaled
      rw [hsm] at this
      linarith [hlf ▸ this]
    have hstep2 : lengthV (addScaled (addScaled f r (strafe * 0.22)) u (sinv * 0.05)) ≥
        1 - strafe * 0.22 - |sinv * 0.05| := by
      have := lengthV_vadd_ge_left (addScaled f r (strafe * 0.22)) (smul (sinv * 0.05) u)
      have hsm : lengthV (smul (sinv * 0.05) u) = |sinv * 0.05| := by
        rw [lengthV_smul, hlu, mul_one]
      unfold addScaled at this hstep1 ⊢
      rw [hsm] at this
      linarith
    have habs : |sinv * 0.05| ≤ 0.05 := by
      rw [abs_mul, abs_of_nonneg (by norm_num : (0 : ℝ) ≤ 0.05)]
      have : |sinv| ≤ 1 := abs_le.mpr ⟨h3, h4⟩
      nlinarith [abs_nonneg sinv]
    have hpos : 0 < lengthV (addScaled (addScaled f r (strafe * 0.22)) u (sinv * 0.05)) := by
      nlinarith
    exact normSq_pos_of_length_pos _ hpos
  · exact normSq_normalize f (by rw [hf]; norm_num)

theorem moonOutwardOf_unit (target parentPos : Vec3) :
    normSq (moonOutwardOf target parentPos) = 1 := by
  show normSq (normalizeV
    (if normSq (vsub target parentPos) < 1e-6 then (⟨1, 0.2, 1⟩ : Vec3)
     else vsub target parentPos)) = 1
  split_ifs with hc
  · apply normSq_normalize
    show (0 : ℝ) < 1 * 1 + 0.2 * 0.2 + 1 * 1
    norm_num
  · push_neg at hc
    exact normSq_normalize _ (by nlinarith)

theorem moonSideOf_unit (outward : Vec3) : normSq (moonSideOf outward) = 1 := by
  show normSq (normalizeV
    (if normSq (crossV outward worldUpV) < 1e-6 then (⟨1, 0, 0⟩ : Vec3)
     else crossV outward worldUpV)) = 1
  split_ifs with hc
  · apply normSq_normalize
    show (0 : ℝ) < 1 * 1 + 0 * 0 + 0 * 0
    norm_num
  · push_neg at hc
    exact normSq_normalize _ (by nlinarith)

theorem earthEscapeDir_unit (pos earthPos : Vec3) :
    normSq (earthEscapeDir pos earthPos) = 1 := by
  show normSq (normalizeV
    (if normSq (vsub pos earthPos) < 1e-6 then (⟨1, 0.2, 0.6⟩ : Vec3)
     else vsub pos earthPos)) = 1
  split_ifs with hc
  · apply normSq_normalize
    show (0 : ℝ) < 1 * 1 + 0.2 * 0.2 + 0.6 * 0.6
    norm_num
  · push_neg at hc
    exact normSq_normalize _ (by nlinarith)

theorem randomUnitVec_zero_zero : randomUnitVec 0 0 = ⟨1, 0, 0⟩ := by
  unfold randomUnitVec
  simp only [Vec3.mk.injEq]
  have hm : max (0 : ℝ) (1 - 0 * 0) = 1 := by norm_num
  rw [hm, Real.sqrt_one, Real.cos_zero, Real.sin_zero]
  norm_num

theorem randomUnitVec_zero_one : randomUnitVec 0 1 = ⟨0, 1, 0⟩ := by
  unfold randomUnitVec
  simp only [Vec3.mk.injEq]
  have hm : max (0 : ℝ) (1 - 1 * 1) = 0 := by norm_num
  rw [hm, Real.sqrt_zero, Real.cos_zero, Real.sin_zero]
  norm_num

theorem normalizeV_e2 : normalizeV (⟨0, 1, 0⟩ : Vec3) = ⟨0, 1, 0⟩ := by
  unfold normalizeV
  have hl : lengthV (⟨0, 1, 0⟩ : Vec3) = 1 := by
    unfold lengthV normSq
    simp only
    rw [show (0 : ℝ) * 0 + 1 * 1 + 0 * 0 = 1 by ring, Real.sqrt_one]
  rw [if_neg (by rw [hl]; norm_num), hl]
  unfold smul
  norm_num

/-! ### Claim C8 -/

/-- Counterexample to C8 as stated: the orbit radial direction of the pilot
is not replaced by a *fixed* canonical vector when degenerate (camera exactly
at the focus point) — the substitute is a fresh random unit vector, so two
different random draws yield two different guarded radial directions. -/
theorem claim_C8_counterexample :
    orbitRadial ⟨0, 0, 0⟩ ⟨0, 0, 0⟩ (randomUnitVec 0 0) ≠
      orbitRadial ⟨0, 0, 0⟩ ⟨0, 0, 0⟩ (randomUnitVec 0 1) := by
  have h1 : orbitRadial ⟨0, 0, 0⟩ ⟨0, 0, 0⟩ (randomUnitVec 0 0) = ⟨1, 0, 0⟩ := by
    show normalizeV
      (if normSq (vsub (⟨0, 0, 0⟩ : Vec3) ⟨0, 0, 0⟩) < 1e-6 then randomUnitVec 0 0
       else vsub (⟨0, 0, 0⟩ : Vec3) ⟨0, 0, 0⟩) = ⟨1, 0, 0⟩
    rw [if_pos (by unfold normSq vsub; simp only; norm_num),
      randomUnitVec_zero_zero, normalizeV_e1]
  have h2 : orbitRadial ⟨0, 0, 0⟩ ⟨0, 0, 0⟩ (randomUnitVec 0 1) = ⟨0, 1, 0⟩ := by
    show normalizeV
      (if normSq (vsub (⟨0, 0, 0⟩ : Vec3) ⟨0, 0, 0⟩) < 1e-6 then randomUnitVec 0 1
       else vsub (⟨0, 0, 0⟩ : Vec3) ⟨0, 0, 0⟩) = ⟨0, 1, 0⟩
    rw [if_pos (by unfold normSq vsub; simp only; norm_num),
      randomUnitVec_zero_one, normalizeV_e2]
  rw [h1, h2]
  intro h
  have := congrArg Vec3.x h
  simp only at this
  norm_num at this

/-- C8 amended: every direction vector of the camera-pose computation that is
guarded before normalization receives a non-zero fallback — fixed canonical
vectors for the ship right vector, Earth-escape direction and moon offsets, a
fresh random unit vector for the orbit radial, and a secondary cross product
for the orbit tangent — so, for every input state within the source's draw
ranges, every normalization in the pose pipeline operates on a vector of
positive squared length and produces an exact unit vector (hence no NaN can
arise from normalizing a zero-length vector). -/
theorem claim_C8_amended_guarded_normalizations :
    ∀ (camera focus sf target parentPos pos earthPos : Vec3)
      (theta z spin strafe sinv delta : ℝ),
      z * z ≤ 1 → (spin = 1 ∨ spin = -1) →
      0.55 ≤ strafe → strafe ≤ 0.95 → -1 ≤ sinv → sinv ≤ 1 →
      normSq (steerRadial camera focus theta z) = 1 ∧
      normSq (steerTangent camera focus theta z spin) = 1 ∧
      normSq (steerDesired camera focus theta z spin) = 1 ∧
      normSq (steerForward sf camera focus theta z spin delta) = 1 ∧
      normSq (steerRight sf camera focus theta z spin delta) = 1 ∧
      normSq (steerUp sf camera focus theta z spin delta) = 1 ∧
      normSq (moveVec (steerForward sf camera focus theta z spin delta)
        (steerRight sf camera focus theta z spin delta)
        (steerUp sf camera focus theta z spin delta) True strafe sinv) = 1 ∧
      normSq (moveVec (steerForward sf camera focus theta z spin delta)
        (steerRight sf camera focus theta z spin delta)
        (steerUp sf camera focus theta z spin delta) False strafe sinv) = 1 ∧
      normSq (moonOutwardOf target parentPos) = 1 ∧
      normSq (moonSideOf (moonOutwardOf target parentPos)) = 1 ∧
      normSq (earthEscapeDir pos earthPos) = 1 := by
  intro camera focus sf target parentPos pos earthPos theta z spin strafe sinv delta
  intro hz hs hst1 hst2 hsv1 hsv2
  have hrad := steerRadial_unit camera focus theta z hz
  have htan : normSq (steerTangent camera focus theta z spin) = 1 :=
    orbitTangent_unit _ spin hs hrad
  have horth : dotV (steerTangent camera focus theta z spin)
      (steerRadial camera focus theta z) = 0 :=
    orbitTangent_orth _ spin
  have hdes : normSq (steerDesired camera focus theta z spin) = 1 :=
    orbitDesired_unit _ _ hrad htan horth
  have hfwd : normSq (steerForward sf camera focus theta z spin delta) = 1 :=
    shipForwardNext_unit sf _ delta hdes
  have hrt : normSq (steerRight sf camera focus theta z spin delta) = 1 :=
    shipRightOf_unit _
  have hup : normSq (steerUp sf camera focus theta z spin delta) = 1 :=
    shipUpOf_unit _ hfwd
  refine ⟨hrad, htan, hdes, hfwd, hrt, hup, ?_, ?_, moonOutwardOf_unit target parentPos,
    moonSideOf_unit _, earthEscapeDir_unit pos earthPos⟩
  · exact moveVec_unit _ _ _ True strafe sinv hfwd hrt hup hst1 hst2 hsv1 hsv2
  · exact moveVec_unit _ _ _ False strafe sinv hfwd hrt hup hst1 hst2 hsv1 hsv2

/-- Witness for the amended C8 at one concrete camera state and draw. -/
theorem claim_C8_amended_witness :
    normSq (steerRadial ⟨3, 0, 0⟩ ⟨0, 0, 0⟩ 0 0) = 1 ∧
    normSq (earthEscapeDir ⟨5, 0, 0⟩ ⟨0, 0, 0⟩) = 1 ∧
    normSq (moonOutwardOf ⟨1, 0, 0⟩ ⟨0, 0, 0⟩) = 1 := by
  have h := claim_C8_amended_guarded_normalizations ⟨3, 0, 0⟩ ⟨0, 0, 0⟩ ⟨0, 0, 1⟩
    ⟨1, 0, 0⟩ ⟨0, 0, 0⟩ ⟨5, 0, 0⟩ ⟨0, 0, 0⟩ 0 0 1 0.6 0 0.1
    (by norm_num) (Or.inl rfl) (by norm_num) (by norm_num) (by norm_num) (by norm_num)
  exact ⟨h.1, h.2.2.2.2.2.2.2.2.2.2, h.2.2.2.2.2.2.2.2.1⟩

/-! ### Earth-clearance lemmas -/

theorem vsub_vadd_right (p q e : Vec3) : vsub (vadd p q) e = vadd (vsub p e) q := by
  unfold vsub vadd
  simp only [Vec3.mk.injEq]
  refine ⟨by ring, by ring, by ring⟩

theorem vsub_vadd_cancel (e q : Vec3) : vsub (vadd e q) e = q := by
  unfold vsub vadd
  cases q
  simp only [Vec3.mk.injEq]
  refine ⟨by ring, by ring, by ring⟩

theorem smul_smul_v (a b : ℝ) (v : Vec3) : smul a (smul b v) = smul (a * b) v := by
  unfold smul
  simp only [Vec3.mk.injEq]
  refine ⟨by ring, by ring, by ring⟩

theorem vadd_self_smul (c : ℝ) (v : Vec3) : vadd v (smul c v) = smul (1 + c) v := by
  unfold vadd smul
  simp only [Vec3.mk.injEq]
  refine ⟨by ring, by ring, by ring⟩

theorem lengthV_unit_of_normSq (v : Vec3) (h : normSq v = 1) : lengthV v = 1 := by
  have := lengthV_sq v
  rw [h] at this
  nlinarith [lengthV_nonneg v]

theorem clampCameraEarth_clearance (epos : Vec3) (er : ℝ) (pos : Vec3) :
    er + mapEnterSurfaceBuffer + 0.34 ≤ distT (clampCameraEarth epos er pos) epos := by
  have hd0 : 0 ≤ distT pos epos := lengthV_nonneg _
  show er + mapEnterSurfaceBuffer + 0.34 ≤ distT
    (if distT pos epos < er + mapEnterSurfaceBuffer + 0.34 then
      addScaled pos (earthEscapeDir pos epos)
        (er + mapEnterSurfaceBuffer + 0.34 - distT pos epos + 0.02)
     else pos) epos
  split_ifs with hd
  · have htpos : 0 < er + mapEnterSurfaceBuffer + 0.34 - distT pos epos + 0.02 := by
      linarith
    unfold addScaled distT
    rw [vsub_vadd_right]
    by_cases hdg : normSq (vsub pos epos) < 1e-6
    · -- degenerate: camera within 1e-3 of the Earth center
      have hunit : lengthV (earthEscapeDir pos epos) = 1 :=
        lengthV_unit_of_normSq _ (earthEscapeDir_unit pos epos)
      have hdsmall : distT pos epos < 1e-3 := by
        have h2 : Real.sqrt (normSq (vsub pos epos)) < Real.sqrt 1e-6 :=
          Real.sqrt_lt_sqrt (normSq_nonneg _) hdg
        have h3 : Real.sqrt 1e-6 = 1e-3 := sqrt_eval _ _ (by norm_num) (by norm_num)
        rw [h3] at h2
        exact h2
      have hge := lengthV_vadd_ge (vsub pos epos)
        (smul (er + mapEnterSurfaceBuffer + 0.34 - distT pos epos + 0.02)
          (earthEscapeDir pos epos))
      have hsm : lengthV (smul (er + mapEnterSurfaceBuffer + 0.34 - distT pos epos + 0.02)
          (earthEscapeDir pos epos)) =
          er + mapEnterSurfaceBuffer + 0.34 - distT pos epos + 0.02 := by
        rw [lengthV_smul, hunit, mul_one, abs_of_pos htpos]
      rw [hsm] at hge
      have hdeq : lengthV (vsub pos epos) = distT pos epos := rfl
      rw [hdeq] at hge
      rw [hdeq]
      linarith
    · -- regular: push straight out along the radial direction
      push_neg at hdg
      have hpos : 0 < normSq (vsub pos epos) := by nlinarith
      have hlpos : 0 < lengthV (vsub pos epos) := lengthV_pos_of_normSq _ hpos
      have hdpos : 0 < distT pos epos := hlpos
      have hdir : earthEscapeDir pos epos =
          smul (lengthV (vsub pos epos))⁻¹ (vsub pos epos) := by
        show normalizeV (if normSq (vsub pos epos) < 1e-6 then (⟨1, 0.2, 0.6⟩ : Vec3)
          else vsub pos epos) = _
        rw [if_neg (not_lt.mpr hdg)]
        unfold normalizeV
        rw [if_neg (ne_of_gt hlpos)]
      have hdeq : lengthV (vsub pos epos) = distT pos epos := rfl
      rw [hdir, hdeq, smul_smul_v, vadd_self_smul, lengthV_smul, hdeq]
      have hco : 0 < 1 + (er + mapEnterSurfaceBuffer + 0.34 - distT pos epos + 0.02) *
          (distT pos epos)⁻¹ := by
        have : 0 < (er + mapEnterSurfaceBuffer + 0.34 - distT pos epos + 0.02) *
            (distT pos epos)⁻¹ := mul_pos htpos (inv_pos.mpr hdpos)
        linarith
      rw [abs_of_pos hco]
      have hmul : (1 + (er + mapEnterSurfaceBuffer + 0.34 - distT pos epos + 0.02) *
          (distT pos epos)⁻¹) * distT pos epos =
          distT pos epos + (er + mapEnterSurfaceBuffer + 0.34 - distT pos epos + 0.02) := by
        field_simp
      rw [hmul]
      linarith
  · push_neg at hd
    exact hd

theorem earthClampWaypoint_clearance (epos : Vec3) (er : ℝ) (cameraPos way : Vec3)
    (her : 0 ≤ er) :
    er + mapEnterSurfaceBuffer + 0.4 ≤
      distT (earthClampWaypoint epos er cameraPos way) epos := by
  have hb : mapEnterSurfaceBuffer = 0.22 := rfl
  show er + mapEnterSurfaceBuffer + 0.4 ≤ distT
    (if distT way epos < er + mapEnterSurfaceBuffer + 0.4 then
      addScaled epos
        (normalizeV
          (if normSq (if normSq (vsub way epos) < 1e-6 then vsub cameraPos epos
            else vsub way epos) < 1e-6 then (⟨1, 0.2, 0.4⟩ : Vec3)
           else if normSq (vsub way epos) < 1e-6 then vsub cameraPos epos
            else vsub way epos))
        (er + mapEnterSurfaceBuffer + 0.4 + 0.06)
     else way) epos
  have hfin : ∀ w : Vec3, 0 < normSq w →
      er + mapEnterSurfaceBuffer + 0.4 ≤
        distT (addScaled epos (normalizeV w) (er + mapEnterSurfaceBuffer + 0.4 + 0.06))
          epos := by
    intro w hw
    unfold addScaled distT
    rw [vsub_vadd_cancel, lengthV_smul, lengthV_normalize w hw, mul_one,
      abs_of_nonneg (by rw [hb]; linarith)]
    linarith
  by_cases hd : distT way epos < er + mapEnterSurfaceBuffer + 0.4
  · rw [if_pos hd]
    apply hfin
    split_ifs with h1 h2
    · show (0 : ℝ) < 1 * 1 + 0.2 * 0.2 + 0.4 * 0.4
      norm_num
    · push_neg at h2
      nlinarith
    · push_neg at h1
      nlinarith
  · rw [if_neg hd]
    push_neg at hd
    exact hd

theorem roamTrackedStep_camera_clearance (env : RoamFrameEnv) (c : RoamCtl)
    (epos : Vec3) (er : ℝ) (henv : env.earth = some (epos, er)) :
    er + mapEnterSurfaceBuffer + 0.34 ≤ distT (roamTrackedStep env c).1.camera epos := by
  simp only [roamTrackedStep, henv]
  exact clampCameraEarth_clearance epos er _

/-! ### Frame-level projection lemmas -/

theorem roamArrival_hasTarget (env : RoamFrameEnv) (a : AutoState) (d : ℝ)
    (camera focus : Vec3) : (roamArrival env a d camera focus).hasTarget = a.hasTarget := by
  unfold roamArrival
  split_ifs <;> rfl

theorem roamArrival_mode_orbit (env : RoamFrameEnv) (a : AutoState) (d : ℝ)
    (camera focus : Vec3) (h : a.mode = RoamMode.orbit) :
    (roamArrival env a d camera focus).mode = RoamMode.orbit := by
  unfold roamArrival
  rw [if_neg]
  · exact h
  · intro hcon
    rw [h] at hcon
    exact absurd hcon.1 (by decide)

theorem roamTrackedStep_hasTarget (env : RoamFrameEnv) (c : RoamCtl) :
    (roamTrackedStep env c).1.auto.hasTarget = c.auto.hasTarget := by
  simp only [roamTrackedStep]
  rw [roamArrival_hasTarget]

theorem roamTrackedStep_mode (env : RoamFrameEnv) (c : RoamCtl) :
    (roamTrackedStep env c).1.auto.mode =
      (roamArrival env c.auto
        (lengthV (vsub (if c.auto.mode = RoamMode.travel then c.waypointPos else c.focusPos)
          c.camera)) c.camera c.focusPos).mode := by
  simp only [roamTrackedStep]

theorem roamAcquire_not_needs (env : RoamFrameEnv) (c : RoamCtl)
    (h : ¬ roamNeedsTarget env c.auto) :
    roamAcquire env c = { c with auto := { c.auto with forceInnerNext :=
            (if travelTimedOutP env c.auto then true else c.auto.forceInnerNext) } } := by
  unfold roamAcquire
  rw [if_neg h]

/-! ### Claim C1 -/

/-- C1: with AutoRoamPilot enabled and holding a target (and Earth present in
the body registry), the end-of-frame camera position is at distance at least
`Earth.radius + MAP_ENTER_SURFACE_BUFFER + 0.34` from the Earth center, for
every target type; and every waypoint leaving the waypoint clamp of
`chooseAutoRoamTarget` is at distance at least
`Earth.radius + MAP_ENTER_SURFACE_BUFFER + 0.4`. -/
theorem claim_C1_earth_clearance_invariant :
    ∀ (env : RoamFrameEnv) (c : RoamCtl) (epos : Vec3) (er : ℝ),
      env.earth = some (epos, er) → 0 ≤ er →
      ((autoFrame env c).1.auto.hasTarget = true →
        er + mapEnterSurfaceBuffer + 0.34 ≤ distT (autoFrame env c).1.camera epos) ∧
      (∀ cameraPos way : Vec3,
        er + mapEnterSurfaceBuffer + 0.4 ≤
          distT (earthClampWaypoint epos er cameraPos way) epos) := by
  intro env c epos er henv her
  constructor
  · intro hT
    simp only [autoFrame] at hT ⊢
    by_cases hc1 : (roamAcquire env c).auto.hasTarget = false
    · rw [if_pos hc1] at hT
      simp only at hT
      rw [hc1] at hT
      exact absurd hT (by decide)
    · rw [if_neg hc1] at hT ⊢
      exact roamTrackedStep_camera_clearance env (roamAcquire env c) epos er henv
  · intro cameraPos way
    exact earthClampWaypoint_clearance epos er cameraPos way her

theorem ctlC1_not_needs : ¬ roamNeedsTarget envC1 ctlC1.auto := by
  unfold roamNeedsTarget travelTimedOutP orbitReadyP
  rintro (h | ⟨_, hm, _⟩ | ⟨_, _, hh, _⟩)
  · simp [ctlC1, sunState] at h
  · simp [ctlC1, sunState] at hm
  · simp only [ctlC1, sunState, envC1, baseEnv] at hh
    norm_num at hh

theorem ctlC1_frame_hasTarget : (autoFrame envC1 ctlC1).1.auto.hasTarget = true := by
  simp only [autoFrame]
  rw [roamAcquire_not_needs envC1 ctlC1 ctlC1_not_needs]
  rw [if_neg (by simp [ctlC1, sunState])]
  rw [roamTrackedStep_hasTarget]
  simp [ctlC1, sunState]

/-- Witness for C1 at a concrete orbiting state with Earth of radius 1 at
the origin. -/
theorem claim_C1_earth_clearance_invariant_witness :
    (autoFrame envC1 ctlC1).1.auto.hasTarget = true ∧
    1 + mapEnterSurfaceBuffer + 0.34 ≤ distT (autoFrame envC1 ctlC1).1.camera ⟨0, 0, 0⟩ ∧
    1 + mapEnterSurfaceBuffer + 0.4 ≤
      distT (earthClampWaypoint ⟨0, 0, 0⟩ 1 ⟨50, 0, 0⟩ ⟨0, 0, 99⟩) ⟨0, 0, 0⟩ := by
  have h := claim_C1_earth_clearance_invariant envC1 ctlC1 ⟨0, 0, 0⟩ 1 rfl (by norm_num)
  exact ⟨ctlC1_frame_hasTarget, h.1 ctlC1_frame_hasTarget, h.2 ⟨50, 0, 0⟩ ⟨0, 0, 99⟩⟩

/-! ### Claim C2 -/

/-- C2: in orbit mode with a target, the departure trigger (target
reselection, sending the pilot back to travel) holds iff the wall clock has
reached `holdUntilMs` AND turn progress has reached `orbitTurnsTarget`; when
at least one of the two fails the pilot is still in orbit mode (with its
target) at the end of the frame; when both hold and a fresh target is
available, the reselection adopts it in travel mode. -/
theorem claim_C2_orbit_departure_needs_both :
    ∀ (env : RoamFrameEnv) (c : RoamCtl),
      c.auto.hasTarget = true → c.auto.mode = RoamMode.orbit →
      (roamNeedsTarget env c.auto ↔
        (env.nowMs ≥ c.auto.holdUntilMs ∧
          c.auto.orbitTurnsProgress ≥ c.auto.orbitTurnsTarget)) ∧
      (¬(env.nowMs ≥ c.auto.holdUntilMs ∧
          c.auto.orbitTurnsProgress ≥ c.auto.orbitTurnsTarget) →
        (autoFrame env c).1.auto.mode = RoamMode.orbit ∧
        (autoFrame env c).1.auto.hasTarget = true) ∧
      (∀ next, env.chooseResult = some next →
        env.nowMs ≥ c.auto.holdUntilMs →
        c.auto.orbitTurnsProgress ≥ c.auto.orbitTurnsTarget →
        (roamAcquire env c).auto.mode = RoamMode.travel ∧
        (roamAcquire env c).auto.travelStartedMs = env.nowMs) := by
  intro env c hT hM
  have hiff : roamNeedsTarget env c.auto ↔
      (env.nowMs ≥ c.auto.holdUntilMs ∧
        c.auto.orbitTurnsProgress ≥ c.auto.orbitTurnsTarget) := by
    unfold roamNeedsTarget travelTimedOutP orbitReadyP
    constructor
    · rintro (h | ⟨_, hm, _⟩ | ⟨_, _, hh, hp⟩)
      · rw [hT] at h
        exact absurd h (by decide)
      · rw [hM] at hm
        exact absurd hm (by decide)
      · exact ⟨hh, hp⟩
    · rintro ⟨hh, hp⟩
      exact Or.inr (Or.inr ⟨hT, hM, hh, hp⟩)
  refine ⟨hiff, ?_, ?_⟩
  · intro hnot
    have hneeds : ¬ roamNeedsTarget env c.auto := fun h => hnot (hiff.mp h)
    simp only [autoFrame]
    rw [roamAcquire_not_needs env c hneeds]
    rw [if_neg (by simp only; rw [hT]; decide)]
    constructor
    · rw [roamTrackedStep_mode]
      exact roamArrival_mode_orbit _ _ _ _ _ (by simp only; exact hM)
    · rw [roamTrackedStep_hasTarget]
      simp only
      exact hT
  · intro next hch hh hp
    have hneeds : roamNeedsTarget env c.auto :=
      Or.inr (Or.inr ⟨hT, hM, hh, hp⟩)
    unfold roamAcquire
    rw [if_pos hneeds, hch]
    exact ⟨rfl, rfl⟩

/-- Witness for C2: with an unexpired hold timer the pilot stays in orbit;
with both conditions met and a fresh target available it departs to travel. -/
theorem claim_C2_orbit_departure_needs_both_witness :
    (autoFrame envC1 ctlC1).1.auto.mode = RoamMode.orbit ∧
    (roamAcquire envC4 ctlC2r).auto.mode = RoamMode.travel := by
  have h1 := claim_C2_orbit_departure_needs_both envC1 ctlC1 rfl rfl
  have h2 := claim_C2_orbit_departure_needs_both envC4 ctlC2r rfl rfl
  constructor
  · refine (h1.2.1 ?_).1
    rintro ⟨hh, _⟩
    have h0 : envC1.nowMs = 0 := rfl
    have h1000 : ctlC1.auto.holdUntilMs = 1000 := rfl
    rw [h0, h1000] at hh
    norm_num at hh
  · refine (h2.2.2 choiceC4 rfl ?_ ?_).1
    · show envC4.nowMs ≥ ctlC2r.auto.holdUntilMs
      show (0 : ℝ) ≥ 0
      exact le_refl 0
    · show ctlC2r.auto.orbitTurnsProgress ≥ ctlC2r.auto.orbitTurnsTarget
      show (0 : ℝ) ≥ 0
      exact le_refl 0

/-! ### Claim C3 helpers -/

theorem roamArrival_not_arrive (env : RoamFrameEnv) (a : AutoState) (d : ℝ)
    (camera focus : Vec3) (h : ¬(a.mode = RoamMode.travel ∧ d ≤ a.arrivalDistance)) :
    roamArrival env a d camera focus = a := by
  unfold roamArrival
  rw [if_neg h]

theorem roamArrival_arrive_fields (env : RoamFrameEnv) (a : AutoState) (d : ℝ)
    (camera focus : Vec3) (h : a.mode = RoamMode.travel ∧ d ≤ a.arrivalDistance) :
    (roamArrival env a d camera focus).mode = RoamMode.orbit ∧
    (roamArrival env a d camera focus).orbitTurnsProgress = 0 ∧
    (roamArrival env a d camera focus).orbitPrevAzimuth =
      some (jsAtan2 (vsub camera focus).z (vsub camera focus).x) ∧
    (roamArrival env a d camera focus).holdUntilMs = env.nowMs +
      (if a.targetType = TTypeR.moon ∨ a.targetType = TTypeR.planet then
        env.holdDrawPlanetMoon else env.holdDrawField) := by
  unfold roamArrival
  rw [if_pos h]
  exact ⟨rfl, rfl, rfl, rfl⟩

theorem roamTrackedStep_progress (env : RoamFrameEnv) (c : RoamCtl) :
    (roamTrackedStep env c).1.auto.orbitTurnsProgress =
      (roamProgress env
        (roamArrival env c.auto
          (lengthV (vsub (if c.auto.mode = RoamMode.travel then c.waypointPos
            else c.focusPos) c.camera)) c.camera c.focusPos)
        c.camera c.focusPos).1 := by
  simp only [roamTrackedStep]

theorem roamTrackedStep_prevAz (env : RoamFrameEnv) (c : RoamCtl) :
    (roamTrackedStep env c).1.auto.orbitPrevAzimuth =
      (roamProgress env
        (roamArrival env c.auto
          (lengthV (vsub (if c.auto.mode = RoamMode.travel then c.waypointPos
            else c.focusPos) c.camera)) c.camera c.focusPos)
        c.camera c.focusPos).2 := by
  simp only [roamTrackedStep]

theorem wrapPi_zero : wrapPi 0 = 0 := by
  unfold wrapPi
  have hpi := Real.pi_pos
  rw [if_neg (by push_neg; linarith), if_neg (by push_neg; linarith)]

theorem orbitRadial_azimuth (camera focus rnd : Vec3)
    (h : ¬ normSq (vsub camera focus) < 1e-6) :
    jsAtan2 (orbitRadial camera focus rnd).z (orbitRadial camera focus rnd).x =
      jsAtan2 (vsub camera focus).z (vsub camera focus).x := by
  have hpos : 0 < normSq (vsub camera focus) := by
    push_neg at h
    nlinarith
  have hl : 0 < lengthV (vsub camera focus) := lengthV_pos_of_normSq _ hpos
  have hred : orbitRadial camera focus rnd =
      smul (lengthV (vsub camera focus))⁻¹ (vsub camera focus) := by
    show normalizeV (if normSq (vsub camera focus) < 1e-6 then rnd
      else vsub camera focus) = _
    rw [if_neg h]
    unfold normalizeV
    rw [if_neg (ne_of_gt hl)]
  rw [hred]
  show jsAtan2 ((lengthV (vsub camera focus))⁻¹ * (vsub camera focus).z)
    ((lengthV (vsub camera focus))⁻¹ * (vsub camera focus).x) = _
  exact jsAtan2_pos_smul _ _ _ (inv_pos.mpr hl)

theorem travelTimeoutOf_pos (env : RoamFrameEnv) : 0 < travelTimeoutOf env := by
  unfold travelTimeoutOf
  apply div_pos
  · split_ifs <;> norm_num
  · exact lt_of_lt_of_le (by norm_num) (le_max_right _ _)

theorem roamProgress_at_orbit (env : RoamFrameEnv) (a : AutoState) (camera focus : Vec3)
    (prev : ℝ) (hm : a.mode = RoamMode.orbit) (hp : a.orbitPrevAzimuth = some prev) :
    roamProgress env a camera focus =
      (a.orbitTurnsProgress +
        |wrapPi (jsAtan2 (orbitRadial camera focus env.radialDraw).z
          (orbitRadial camera focus env.radialDraw).x - prev)| / (Real.pi * 2),
       some (jsAtan2 (orbitRadial camera focus env.radialDraw).z
         (orbitRadial camera focus env.radialDraw).x)) := by
  simp only [roamProgress]
  rw [if_pos hm, hp]

/-! ### Claim C3 -/

/-- Counterexample to C3 as stated: with the camera exactly on the focus
point of a moon target (distance to focus `0 ≤ 2.4`) but `5.8` away from the
waypoint, the frame does NOT flip to orbit mode — the arrival test compares
the distance to the waypoint, not to the focus point. -/
theorem claim_C3_counterexample :
    distT ctlC3.camera ctlC3.focusPos ≤ ctlC3.auto.arrivalDistance ∧
    (autoFrame baseEnv ctlC3).1.auto.mode = RoamMode.travel := by
  constructor
  · have h0 : distT ctlC3.camera ctlC3.focusPos = 0 := by
      show Real.sqrt (((100 : ℝ) - 100) * (100 - 100) + (0 - 0) * (0 - 0) +
        (0 - 0) * (0 - 0)) = 0
      rw [show ((100 : ℝ) - 100) * (100 - 100) + (0 - 0) * (0 - 0) +
        (0 - 0) * (0 - 0) = 0 by norm_num, Real.sqrt_zero]
    rw [h0]
    show (0 : ℝ) ≤ 2.4
    norm_num
  · have hneeds : ¬ roamNeedsTarget baseEnv ctlC3.auto := by
      rintro (h | ⟨_, _, hh⟩ | ⟨_, hm, _, _⟩)
      · exact absurd h (by decide)
      · have h0 : baseEnv.nowMs - ctlC3.auto.travelStartedMs = 0 := by norm_num [baseEnv, ctlC3, travelMoonState]
        rw [h0] at hh
        exact absurd hh (not_lt.mpr (le_of_lt (travelTimeoutOf_pos baseEnv)))
      · exact absurd hm (by decide)
    have htno : ¬ travelTimedOutP baseEnv ctlC3.auto := by
      rintro ⟨_, _, hh⟩
      have h0 : baseEnv.nowMs - ctlC3.auto.travelStartedMs = 0 := by norm_num [baseEnv, ctlC3, travelMoonState]
      rw [h0] at hh
      exact absurd hh (not_lt.mpr (le_of_lt (travelTimeoutOf_pos baseEnv)))
    have hc1 : roamAcquire baseEnv ctlC3 = ctlC3 := by
      rw [roamAcquire_not_needs baseEnv ctlC3 hneeds, if_neg htno]
    simp only [autoFrame]
    rw [hc1, if_neg (by decide)]
    rw [roamTrackedStep_mode]
    have hdist : lengthV (vsub (if ctlC3.auto.mode = RoamMode.travel then ctlC3.waypointPos
        else ctlC3.focusPos) ctlC3.camera) = 5.8 := by
      have hmeq : ctlC3.auto.mode = RoamMode.travel := rfl
      rw [if_pos hmeq]
      show Real.sqrt (((105.8 : ℝ) - 100) * (105.8 - 100) + (0 - 0) * (0 - 0) +
        (0 - 0) * (0 - 0)) = 5.8
      exact sqrt_eval _ _ (by norm_num) (by norm_num)
    rw [hdist]
    rw [roamArrival_not_arrive baseEnv ctlC3.auto 5.8 ctlC3.camera ctlC3.focusPos]
    · rfl
    · rintro ⟨_, hle⟩
      have : ctlC3.auto.arrivalDistance = 2.4 := rfl
      rw [this] at hle
      norm_num at hle

/-- C3 amended: while the pilot is traveling (target held, travel not timed
out), the `travel → orbit` transition fires on a frame iff the camera
distance to the WAYPOINT is at most the arrival-distance threshold (for a
non-Earth moon target of radius 2 in illustrative units the threshold is
`max (2 * 1.2) 1.5 = 2.4`); when it fires (with the camera not degenerate at
the focus point), the end-of-frame `orbitTurnsProgress` is `0` and the
camera-to-focus horizontal azimuth is recorded as the turn baseline. -/
theorem claim_C3_amended_arrival_by_waypoint_distance :
    ∀ (env : RoamFrameEnv) (c : RoamCtl),
      c.auto.hasTarget = true → c.auto.mode = RoamMode.travel →
      env.nowMs - c.auto.travelStartedMs ≤ travelTimeoutOf env →
      ((autoFrame env c).1.auto.mode = RoamMode.orbit ↔
        distT c.waypointPos c.camera ≤ c.auto.arrivalDistance) ∧
      (∀ fk : Option String, fk ≠ some "Earth" →
        arrivalDistanceFor TTypeR.moon fk 2 false = 2.4) ∧
      (distT c.waypointPos c.camera ≤ c.auto.arrivalDistance →
        ¬ normSq (vsub c.camera c.focusPos) < 1e-6 →
        (autoFrame env c).1.auto.orbitTurnsProgress = 0 ∧
        (autoFrame env c).1.auto.orbitPrevAzimuth =
          some (jsAtan2 (vsub c.camera c.focusPos).z (vsub c.camera c.focusPos).x)) := by
  intro env c hT hM hnt
  have htno : ¬ travelTimedOutP env c.auto := by
    rintro ⟨_, _, hh⟩
    linarith
  have hneeds : ¬ roamNeedsTarget env c.auto := by
    rintro (h | h | ⟨_, hm, _, _⟩)
    · rw [hT] at h
      exact absurd h (by decide)
    · exact htno h
    · rw [hM] at hm
      exact absurd hm (by decide)
  have hc1 : roamAcquire env c = c := by
    rw [roamAcquire_not_needs env c hneeds, if_neg htno]
  have hframe : autoFrame env c = roamTrackedStep env c := by
    simp only [autoFrame]
    rw [hc1, if_neg (by rw [hT]; decide)]
  have hdist : lengthV (vsub (if c.auto.mode = RoamMode.travel then c.waypointPos
      else c.focusPos) c.camera) = distT c.waypointPos c.camera := by
    rw [if_pos hM]
    rfl
  refine ⟨?_, ?_, ?_⟩
  · rw [hframe, roamTrackedStep_mode, hdist]
    by_cases harr : distT c.waypointPos c.camera ≤ c.auto.arrivalDistance
    · have hfld := roamArrival_arrive_fields env c.auto _ c.camera c.focusPos ⟨hM, harr⟩
      rw [hfld.1]
      exact ⟨fun _ => harr, fun _ => rfl⟩
    · rw [roamArrival_not_arrive env c.auto _ c.camera c.focusPos
        (fun hcon => harr hcon.2)]
      constructor
      · intro h
        rw [hM] at h
        exact absurd h (by decide)
      · intro h
        exact absurd h harr
  · intro fk hfk
    unfold arrivalDistanceFor
    rw [if_neg hfk, if_pos rfl]
    have hb : (false : Bool) = true ↔ False := by decide
    simp only [hb, if_false]
    rw [max_eq_left (by norm_num)]
    norm_num
  · intro harr hnd
    have hfld := roamArrival_arrive_fields env c.auto
      (lengthV (vsub (if c.auto.mode = RoamMode.travel then c.waypointPos
        else c.focusPos) c.camera)) c.camera c.focusPos
      ⟨hM, by rw [hdist]; exact harr⟩
    have haz := orbitRadial_azimuth c.camera c.focusPos env.radialDraw hnd
    have hpr := roamProgress_at_orbit env
      (roamArrival env c.auto
        (lengthV (vsub (if c.auto.mode = RoamMode.travel then c.waypointPos
          else c.focusPos) c.camera)) c.camera c.focusPos)
      c.camera c.focusPos
      (jsAtan2 (vsub c.camera c.focusPos).z (vsub c.camera c.focusPos).x)
      hfld.1 hfld.2.2.1
    constructor
    · rw [hframe, roamTrackedStep_progress, hpr]
      simp only
      rw [hfld.2.1, haz, sub_self, wrapPi_zero, abs_zero, zero_div, add_zero]
    · rw [hframe, roamTrackedStep_prevAz, hpr]
      simp only
      rw [haz]

/-- Witness for the amended C3: camera `1.8` from the waypoint of a radius-2
moon target (threshold `2.4`) flips to orbit with progress reset to `0`. -/
theorem claim_C3_amended_arrival_witness :
    (autoFrame baseEnv ctlC3b).1.auto.mode = RoamMode.orbit ∧
    (autoFrame baseEnv ctlC3b).1.auto.orbitTurnsProgress = 0 ∧
    arrivalDistanceFor TTypeR.moon (some "Saturn/Titan") 2 false = 2.4 := by
  have hnt : baseEnv.nowMs - ctlC3b.auto.travelStartedMs ≤ travelTimeoutOf baseEnv := by
    have h0 : baseEnv.nowMs - ctlC3b.auto.travelStartedMs = 0 := by
      norm_num [baseEnv, ctlC3b, ctlC3, travelMoonState]
    rw [h0]
    exact le_of_lt (travelTimeoutOf_pos baseEnv)
  have h := claim_C3_amended_arrival_by_waypoint_distance baseEnv ctlC3b rfl rfl hnt
  have harr : distT ctlC3b.waypointPos ctlC3b.camera ≤ ctlC3b.auto.arrivalDistance := by
    have hd : distT ctlC3b.waypointPos ctlC3b.camera = 1.8 := by
      show Real.sqrt (((105.8 : ℝ) - 104) * (105.8 - 104) + (0 - 0) * (0 - 0) +
        (0 - 0) * (0 - 0)) = 1.8
      exact sqrt_eval _ _ (by norm_num) (by norm_num)
    rw [hd]
    show (1.8 : ℝ) ≤ 2.4
    norm_num
  have hnd : ¬ normSq (vsub ctlC3b.camera ctlC3b.focusPos) < 1e-6 := by
    show ¬ (((104 : ℝ) - 100) * (104 - 100) + (0 - 0) * (0 - 0) +
      (0 - 0) * (0 - 0)) < 1e-6
    norm_num
  exact ⟨h.1.mpr harr, (h.2.2 harr hnd).1,
    h.2.1 (some "Saturn/Titan") (by simp)⟩

/-! ### Claim C10 -/

/-- C10: in orbit mode each frame adds to `orbitTurnsProgress` the absolute
azimuth change since the previous frame — equal in absolute value to the
representative wrapped into `(-π, π]` — divided by `2π`; the progress is
therefore non-decreasing, stays non-negative, and grows by at most `0.5` per
frame; the stored previous azimuth becomes the current one. -/
theorem claim_C10_orbit_progress_increment :
    ∀ (env : RoamFrameEnv) (a : AutoState) (camera focus : Vec3) (prev az : ℝ),
      a.mode = RoamMode.orbit → a.orbitPrevAzimuth = some prev →
      -Real.pi < prev → prev ≤ Real.pi →
      az = jsAtan2 (orbitRadial camera focus env.radialDraw).z
        (orbitRadial camera focus env.radialDraw).x →
      (roamProgress env a camera focus).1 =
        a.orbitTurnsProgress + |wrapPi (az - prev)| / (Real.pi * 2) ∧
      |wrapPi (az - prev)| = |wrapHalfOpen (az - prev)| ∧
      a.orbitTurnsProgress ≤ (roamProgress env a camera focus).1 ∧
      (0 ≤ a.orbitTurnsProgress → 0 ≤ (roamProgress env a camera focus).1) ∧
      (roamProgress env a camera focus).1 ≤ a.orbitTurnsProgress + 1 / 2 ∧
      (roamProgress env a camera focus).2 = some az := by
  intro env a camera focus prev az hm hp hprev1 hprev2 haz
  have hpr := roamProgress_at_orbit env a camera focus prev hm hp
  have hpi := Real.pi_pos
  have hazmem := jsAtan2_mem (orbitRadial camera focus env.radialDraw).z
    (orbitRadial camera focus env.radialDraw).x
  rw [← haz] at hpr hazmem
  have hd1 : -(Real.pi * 2) < az - prev := by linarith [hazmem.1]
  have hd2 : az - prev < Real.pi * 2 := by linarith [hazmem.2]
  have habs : |wrapPi (az - prev)| ≤ Real.pi := wrapPi_abs_le _ hd1 hd2
  have hnn : 0 ≤ |wrapPi (az - prev)| := abs_nonneg _
  have hdivnn : 0 ≤ |wrapPi (az - prev)| / (Real.pi * 2) :=
    div_nonneg hnn (by linarith)
  have hdivle : |wrapPi (az - prev)| / (Real.pi * 2) ≤ 1 / 2 := by
    rw [div_le_iff (by linarith : (0 : ℝ) < Real.pi * 2)]
    calc |wrapPi (az - prev)| ≤ Real.pi := habs
      _ = 1 / 2 * (Real.pi * 2) := by ring
  rw [hpr]
  refine ⟨rfl, wrapPi_abs_eq_halfOpen _ hd1 hd2, ?_, ?_, ?_, rfl⟩
  · simp only
    linarith
  · intro h
    simp only
    linarith
  · simp only
    linarith

/-- Witness for C10 at a concrete orbit state with a recorded azimuth of `0`
and the camera on the positive x-axis from the focus (azimuth `0`). -/
theorem claim_C10_orbit_progress_increment_witness :
    (roamProgress baseEnv { sunState with orbitPrevAzimuth := some 0 }
      ⟨104, 0, 0⟩ ⟨100, 0, 0⟩).1 = 0 +
      |wrapPi (jsAtan2 (orbitRadial ⟨104, 0, 0⟩ ⟨100, 0, 0⟩ baseEnv.radialDraw).z
        (orbitRadial ⟨104, 0, 0⟩ ⟨100, 0, 0⟩ baseEnv.radialDraw).x - 0)| /
        (Real.pi * 2) ∧
    (roamProgress baseEnv { sunState with orbitPrevAzimuth := some 0 }
      ⟨104, 0, 0⟩ ⟨100, 0, 0⟩).1 ≤ 0 + 1 / 2 := by
  have h := claim_C10_orbit_progress_increment baseEnv
    { sunState with orbitPrevAzimuth := some 0 } ⟨104, 0, 0⟩ ⟨100, 0, 0⟩ 0
    (jsAtan2 (orbitRadial ⟨104, 0, 0⟩ ⟨100, 0, 0⟩ baseEnv.radialDraw).z
      (orbitRadial ⟨104, 0, 0⟩ ⟨100, 0, 0⟩ baseEnv.radialDraw).x)
    rfl rfl (by linarith [Real.pi_pos]) (le_of_lt Real.pi_pos) rfl
  exact ⟨h.1, h.2.2.2.2.1⟩

/-! ### Claim C4 helpers -/

theorem emitStep_sig_none (sig0 : Option RoamSig) (t0 now : ℝ) :
    (emitStep sig0 t0 none now).1.1 = none := by
  show (if sigOf none ≠ sig0 ∨ now - t0 > 220 then ((sigOf none, now), some none)
    else ((sig0, t0), none)).1.1 = none
  split_ifs with h
  · rfl
  · push_neg at h
    exact h.1.symm

theorem disableReset_emitSig (c : RoamCtl) (nowMs : ℝ) :
    (disableReset c nowMs).emitSig = none := by
  show (emitStep c.emitSig c.emitTime none nowMs).1.1 = none
  exact emitStep_sig_none c.emitSig c.emitTime nowMs

theorem roamTrackedStep_emit (env : RoamFrameEnv) (c : RoamCtl)
    (h : c.emitSig = none) :
    ∃ st : RoamStatus, (roamTrackedStep env c).2 = some (some st) ∧
      st.mode = modeString (roamArrival env c.auto
        (lengthV (vsub (if c.auto.mode = RoamMode.travel then c.waypointPos
          else c.focusPos) c.camera)) c.camera c.focusPos).mode := by
  simp only [roamTrackedStep]
  unfold emitStep
  rw [if_pos (Or.inl (by rw [h]; exact fun hc => Option.noConfusion hc))]
  exact ⟨_, rfl, rfl⟩

theorem emitStep_some_emits (t0 now : ℝ) (st : RoamStatus) :
    (emitStep none t0 (some st) now).2 = some (some st) := by
  show (if sigOf (some st) ≠ none ∨ now - t0 > 220 then
    ((sigOf (some st), now), some (some st)) else ((none, t0), none)).2 = some (some st)
  rw [if_pos (Or.inl (by simp [sigOf]))]

theorem modeString_ne_acquiring (m : RoamMode) : modeString m ≠ "acquiring" := by
  cases m <;> decide

/-! ### Claim C4 -/

/-- C4 amended: disabling AutoRoamPilot resets the roam state (no target,
progress `0`, turn target `1`, previous azimuth cleared, accumulated speed
`0`, emit signature cleared); after re-enabling, the first frame emits an
`acquiring` status only when no target could be chosen on that frame — when a
target is adopted, the first status already carries the adopted mode
(`travel`, or `orbit` when the camera is already within the fresh arrival
distance), never `acquiring`. -/
theorem claim_C4_amended_reset_and_first_status :
    ∀ (c : RoamCtl) (nowMs : ℝ) (env : RoamFrameEnv),
      (disableReset c nowMs).auto.hasTarget = false ∧
      (disableReset c nowMs).auto.orbitTurnsProgress = 0 ∧
      (disableReset c nowMs).auto.orbitTurnsTarget = 1 ∧
      (disableReset c nowMs).auto.orbitPrevAzimuth = none ∧
      (disableReset c nowMs).autoSpeed = 0 ∧
      (disableReset c nowMs).emitSig = none ∧
      (env.chooseResult = none →
        (autoFrame env (disableReset c nowMs)).2 = some (some acquiringStatus)) ∧
      (∀ next, env.chooseResult = some next →
        ∃ st : RoamStatus,
          (autoFrame env (disableReset c nowMs)).2 = some (some st) ∧
          st.mode = modeString (roamArrival env (adoptChoice env next)
            (lengthV (vsub next.waypoint c.camera)) c.camera next.focus).mode ∧
          st.mode ≠ "acquiring") := by
  intro c nowMs env
  have hneeds : roamNeedsTarget env (disableReset c nowMs).auto := Or.inl rfl
  refine ⟨rfl, rfl, rfl, rfl, rfl, disableReset_emitSig c nowMs, ?_, ?_⟩
  · intro hch
    simp only [autoFrame]
    unfold roamAcquire
    rw [if_pos hneeds, hch]
    show (emitStep (disableReset c nowMs).emitSig (disableReset c nowMs).emitTime
      (some acquiringStatus) env.nowMs).2 = some (some acquiringStatus)
    rw [disableReset_emitSig c nowMs]
    exact emitStep_some_emits _ _ _
  · intro next hch
    have hsig : ({ disableReset c nowMs with auto := adoptChoice env next, focusPos := next.focus, waypointPos := next.waypoint } : RoamCtl).emitSig = none := disableReset_emitSig c nowMs
    obtain ⟨st, hst, hmode⟩ := roamTrackedStep_emit env { disableReset c nowMs with auto := adoptChoice env next, focusPos := next.focus, waypointPos := next.waypoint } hsig
    refine ⟨st, ?_, hmode, ?_⟩
    · simp only [autoFrame]
      unfold roamAcquire
      rw [if_pos hneeds, hch]
      exact hst
    · rw [hmode]
      exact modeString_ne_acquiring _

/-- Counterexample to C4 as stated: re-enabling the pilot from the reset
state while a target can be chosen makes the FIRST emitted status a `travel`
status, not an `acquiring` one. -/
theorem claim_C4_counterexample :
    ((autoFrame envC4 (disableReset ctlC1 0)).2.map (fun o => o.map RoamStatus.mode)) =
      some (some "travel") ∧ "travel" ≠ "acquiring" := by
  refine ⟨?_, by decide⟩
  have hneeds : roamNeedsTarget envC4 (disableReset ctlC1 0).auto := Or.inl rfl
  have hsig : ({ disableReset ctlC1 0 with auto := adoptChoice envC4 choiceC4, focusPos := choiceC4.focus, waypointPos := choiceC4.waypoint } : RoamCtl).emitSig = none := disableReset_emitSig ctlC1 0
  obtain ⟨st, hst, hmode⟩ := roamTrackedStep_emit envC4 { disableReset ctlC1 0 with auto := adoptChoice envC4 choiceC4, focusPos := choiceC4.focus, waypointPos := choiceC4.waypoint } hsig
  have hmode2 : st.mode = modeString (roamArrival envC4 (adoptChoice envC4 choiceC4)
      (lengthV (vsub choiceC4.waypoint ctlC1.camera)) ctlC1.camera choiceC4.focus).mode :=
    hmode
  have hdist : lengthV (vsub choiceC4.waypoint ctlC1.camera) = 155 := by
    show Real.sqrt (((205 : ℝ) - 50) * (205 - 50) + (0 - 0) * (0 - 0) +
      (0 - 0) * (0 - 0)) = 155
    exact sqrt_eval _ _ (by norm_num) (by norm_num)
  rw [hdist] at hmode2
  rw [roamArrival_not_arrive envC4 (adoptChoice envC4 choiceC4) 155 ctlC1.camera
    choiceC4.focus] at hmode2
  · have hframe : (autoFrame envC4 (disableReset ctlC1 0)).2 = some (some st) := by
      simp only [autoFrame]
      unfold roamAcquire
      rw [if_pos hneeds]
      rw [show envC4.chooseResult = some choiceC4 from rfl]
      exact hst
    rw [hframe]
    show some (some st.mode) = some (some "travel")
    rw [hmode2]
    rfl
  · rintro ⟨_, hle⟩
    have ha : (adoptChoice envC4 choiceC4).arrivalDistance = 6 := rfl
    rw [ha] at hle
    norm_num at hle

/-- Witness for the amended C4: concrete reset state, one environment where
no target is found (acquiring) and one where a target is adopted (mode not
acquiring). -/
theorem claim_C4_amended_reset_witness :
    (disableReset ctlC1 0).auto.hasTarget = false ∧
    (disableReset ctlC1 0).autoSpeed = 0 ∧
    (autoFrame baseEnv (disableReset ctlC1 0)).2 = some (some acquiringStatus) ∧
    ∃ st : RoamStatus, (autoFrame envC4 (disableReset ctlC1 0)).2 = some (some st) ∧
      st.mode ≠ "acquiring" := by
  have h1 := claim_C4_amended_reset_and_first_status ctlC1 0 baseEnv
  have h2 := claim_C4_amended_reset_and_first_status ctlC1 0 envC4
  obtain ⟨st, hst, _, hmode⟩ := h2.2.2.2.2.2.2.2 choiceC4 rfl
  exact ⟨h1.1, h1.2.2.2.2.1, h1.2.2.2.2.2.2.1 rfl, st, hst, hmode⟩
